import Mathlib

/-!
Verification of the compressed-NFT demonstration script (`src/index.ts`).

The script is a single linear async program: it loads two wallets, fires an
airdrop request (without awaiting it), creates a Merkle-tree account, mints two
compressed NFTs, transfers the first and burns the second.  We embed it as a
deterministic interpreter: every remote call consults an oracle (`World`),
keyed by a running call counter so that two identical requests may receive
different responses, and the run produces an `Except` result together with a
trace of events (network-request issuance and completion, console output).

External collaborators are modelled as follows.

* `PublicKey` is identified by its base58 text; `toBase58` returns that text
  and `new PublicKey(s)` is `PublicKey.mk s`.  Program-derived addresses
  (`findProgramAddressSync`) are modelled by an injective tagging of the seeds
  and the program id.
* `sendAndConfirmTransaction` is one submit-transaction round trip returning a
  signature string or rejecting.
* `createAllocTreeIx` (SPL account-compression SDK) is awaited with the
  connection: it performs a connection round trip (the rent-exemption query)
  before returning the allocation instruction; the round trip may reject.
  In `createTree` this call happens before the `try` block.
* Modelled from the spec (the `utils` module is not part of `src/`):
  `getOrCreateKeypair` loads or generates a persisted wallet (local, no
  network event); `airdropSolIfNeeded` issues one airdrop request, which the
  call site does not await; `heliusApi` is one request to the indexing API
  (methods `getAsset` / `getAssetProof`); `createCompressedNFTMetadata`
  deterministically builds fixed metadata for an owner; `extractAssetId`
  fetches the confirmed transaction and parses the asset id from its logs.
-/

/-- Error values thrown by remote calls (the thrown JS error, as text). -/
abbrev Err := String

/-- A Solana public key, identified by its base58 text. -/
structure PublicKey where
  key : String
deriving DecidableEq, Repr

/-- `PublicKey.prototype.toBase58()`. -/
def PublicKey.toBase58 (p : PublicKey) : String := p.key

/-- A keypair; only the public half is observable in this script. -/
structure Keypair where
  publicKey : PublicKey
deriving DecidableEq, Repr

/-- `PublicKey.findProgramAddressSync(seeds, programId)`: modelled as an
injective tag of the seeds and the owning program, with bump 0. -/
def PublicKey.findProgramAddressSync (seeds : List String) (programId : PublicKey) :
    PublicKey × Nat :=
  (⟨"pda(" ++ String.intercalate "," seeds ++ ";" ++ programId.key ++ ")"⟩, 0)

/-- The MPL Bubblegum program id exported by `@metaplex-foundation/mpl-bubblegum`. -/
def BUBBLEGUM_PROGRAM_ID : PublicKey := ⟨"BGUMAp9Gq7iTEuizy4pqaxsTyUCBK68MDfK752saRPUY"⟩

/-- The SPL account-compression program id. -/
def SPL_ACCOUNT_COMPRESSION_PROGRAM_ID : PublicKey :=
  ⟨"cmtDvXumGCrqC1Age74AVPhSRVXJMd8PJS91L8KbNCK"⟩

/-- The SPL no-op (log wrapper) program id. -/
def SPL_NOOP_PROGRAM_ID : PublicKey := ⟨"noopb9bkMVfRPU8AsbpTUg8AQkHtKwMYZiFUjNRtMmV"⟩

/-- `ValidDepthSizePair` from `@solana/spl-account-compression`. -/
structure ValidDepthSizePair where
  maxDepth : Nat
  maxBufferSize : Nat
deriving DecidableEq, Repr

/-- `AccountMeta` from `@solana/web3.js`. -/
structure AccountMeta where
  pubkey : PublicKey
  isSigner : Bool
  isWritable : Bool
deriving DecidableEq, Repr

/-- Modelled from the spec: `createCompressedNFTMetadata(owner)` builds fixed
compressed-NFT metadata for the given owner (the only input it receives). -/
structure CNFTMetadata where
  owner : PublicKey
deriving DecidableEq, Repr

/-- Modelled from the spec: the metadata builder from `utils`. -/
def createCompressedNFTMetadata (owner : PublicKey) : CNFTMetadata := ⟨owner⟩

/-- Accounts of `createCreateTreeInstruction`. -/
structure CreateTreeAccounts where
  treeAuthority : PublicKey
  merkleTree : PublicKey
  payer : PublicKey
  treeCreator : PublicKey
  logWrapper : PublicKey
  compressionProgram : PublicKey
deriving DecidableEq, Repr

/-- Args of `createCreateTreeInstruction`. -/
structure CreateTreeArgs where
  maxBufferSize : Nat
  maxDepth : Nat
  public : Bool
deriving DecidableEq, Repr

/-- Accounts of `createMintV1Instruction`. -/
structure MintV1Accounts where
  payer : PublicKey
  merkleTree : PublicKey
  treeAuthority : PublicKey
  treeDelegate : PublicKey
  leafOwner : PublicKey
  leafDelegate : PublicKey
  compressionProgram : PublicKey
  logWrapper : PublicKey
deriving DecidableEq, Repr

/-- Args of `createMintV1Instruction`. -/
structure MintV1Args where
  message : CNFTMetadata
deriving DecidableEq, Repr

/-- Accounts of `createTransferInstruction`. -/
structure TransferAccounts where
  merkleTree : PublicKey
  treeAuthority : PublicKey
  leafOwner : PublicKey
  leafDelegate : PublicKey
  newLeafOwner : PublicKey
  logWrapper : PublicKey
  compressionProgram : PublicKey
  anchorRemainingAccounts : List AccountMeta
deriving DecidableEq, Repr

/-- Args of `createTransferInstruction`; the 32-byte hashes are modelled by the
key whose bytes they are (`[...new PublicKey(x.trim()).toBytes()]`). -/
structure TransferArgs where
  root : PublicKey
  dataHash : PublicKey
  creatorHash : PublicKey
  nonce : Nat
  index : Nat
deriving DecidableEq, Repr

/-- Accounts of `createBurnInstruction`. -/
structure BurnAccounts where
  treeAuthority : PublicKey
  leafOwner : PublicKey
  leafDelegate : PublicKey
  merkleTree : PublicKey
  logWrapper : PublicKey
  compressionProgram : PublicKey
  anchorRemainingAccounts : List AccountMeta
deriving DecidableEq, Repr

/-- Args of `createBurnInstruction` (same shape as the transfer args). -/
structure BurnArgs where
  root : PublicKey
  dataHash : PublicKey
  creatorHash : PublicKey
  nonce : Nat
  index : Nat
deriving DecidableEq, Repr

/-- The instructions this script can place in a transaction. -/
inductive Instruction where
  | allocTree (merkleTree payer : PublicKey) (maxDepth maxBufferSize canopyDepth : Nat)
  | createTree (accounts : CreateTreeAccounts) (args : CreateTreeArgs) (programId : PublicKey)
  | mintV1 (accounts : MintV1Accounts) (args : MintV1Args)
  | transfer (accounts : TransferAccounts) (args : TransferArgs) (programId : PublicKey)
  | burn (accounts : BurnAccounts) (args : BurnArgs) (programId : PublicKey)
deriving DecidableEq, Repr

/-- The instruction kind, used to state phase ordering. -/
inductive IxKind where
  | allocTree
  | createTree
  | mintV1
  | transfer
  | burn
deriving DecidableEq, Repr

/-- Kind of an instruction. -/
def Instruction.kind : Instruction → IxKind
  | .allocTree _ _ _ _ _ => .allocTree
  | .createTree _ _ _ => .createTree
  | .mintV1 _ _ => .mintV1
  | .transfer _ _ _ => .transfer
  | .burn _ _ _ => .burn

/-- A `web3.js` transaction as this script builds it. -/
structure Transaction where
  instructions : List Instruction
  feePayer : Option PublicKey
deriving DecidableEq, Repr

/-- The network requests the run performs. -/
inductive NetCall where
  /-- Devnet airdrop request (`airdropSolIfNeeded`; modelled from the spec). -/
  | airdrop (recipient : PublicKey)
  /-- The connection round trip awaited inside `createAllocTreeIx`. -/
  | allocTreeFetch (merkleTree payer : PublicKey)
  /-- `sendAndConfirmTransaction` with the given signer public keys. -/
  | sendTransaction (tx : Transaction) (signers : List PublicKey)
  /-- The transaction fetch awaited inside `extractAssetId` (modelled from the spec). -/
  | fetchTransaction (txSignature : String) (tree : PublicKey)
  /-- `heliusApi("getAsset", { id })`. -/
  | getAsset (id : String)
  /-- `heliusApi("getAssetProof", { id })`. -/
  | getAssetProof (id : String)
  /-- `ConcurrentMerkleTreeAccount.fromAccountAddress(connection, address)`. -/
  | fetchAccount (address : PublicKey)
deriving DecidableEq, Repr

/-- Observable events of a run, in program order. -/
inductive Event where
  /-- A network request is issued. -/
  | issue (c : NetCall)
  /-- A previously issued request settles (the program observes its result). -/
  | complete (c : NetCall)
  /-- `console.log` output (multiple arguments joined by a space). -/
  | log (s : String)
  /-- `console.error` output (multiple arguments joined by a space). -/
  | logError (s : String)
deriving DecidableEq, Repr

/-- `getAsset` response: the `compression` record the script reads. -/
structure AssetCompression where
  tree : String
  data_hash : String
  creator_hash : String
  leaf_id : Nat
deriving DecidableEq, Repr

/-- `getAsset` response: the `ownership` record the script reads. -/
structure AssetOwnership where
  owner : String
  delegate : Option String
deriving DecidableEq, Repr

/-- The fields of a `getAsset` response that the script destructures. -/
structure AssetData where
  compression : AssetCompression
  ownership : AssetOwnership
deriving DecidableEq, Repr

/-- The fields of a `getAssetProof` response that the script destructures. -/
structure AssetProofData where
  proof : List String
  root : String
deriving DecidableEq, Repr

/-- The part of a fetched `ConcurrentMerkleTreeAccount` the script reads:
`getAuthority()` and `getCanopyDepth()`.  The canopy depth is optional to
reflect the `|| 0` guard at the use site. -/
structure TreeAccountData where
  authority : PublicKey
  canopyDepth : Option Nat
deriving DecidableEq, Repr

/-- The oracle supplying every remote response.  Each field takes the running
call counter first, so two identical requests (e.g. the two mint submissions)
may receive different responses. -/
structure World where
  /-- Modelled from the spec: `getOrCreateKeypair(name)` (local wallet file). -/
  keypair : String → Keypair
  /-- The `Keypair.generate()` result inside `createTree`. -/
  generatedTreeKeypair : Keypair
  /-- Outcome of the round trip inside `createAllocTreeIx`. -/
  allocTreeResult : Nat → Except Err Unit
  /-- Outcome of `sendAndConfirmTransaction`: the confirmed signature. -/
  sendTx : Nat → Transaction → List PublicKey → Except Err String
  /-- Modelled from the spec: outcome of `extractAssetId` (asset id parsed from
  the fetched transaction's logs). -/
  extractAsset : Nat → String → PublicKey → Except Err PublicKey
  /-- Outcome of `heliusApi("getAsset", { id })`. -/
  getAsset : Nat → String → Except Err AssetData
  /-- Outcome of `heliusApi("getAssetProof", { id })`. -/
  getAssetProof : Nat → String → Except Err AssetProofData
  /-- Outcome of `ConcurrentMerkleTreeAccount.fromAccountAddress`. -/
  fetchTreeAccount : Nat → PublicKey → Except Err TreeAccountData

/-- `String.prototype.trim()`: strip leading and trailing whitespace. -/
def jsTrim (s : String) : String :=
  ⟨((s.data.dropWhile Char.isWhitespace).reverse.dropWhile Char.isWhitespace).reverse⟩

/-- `new PublicKey(s.trim())`. -/
def trimKey (s : String) : PublicKey := ⟨jsTrim s⟩

/-- `xs.slice(0, e)` on JavaScript arrays: a negative end counts from the end
of the array. -/
def jsSliceTo (xs : List AccountMeta) (e : Int) : List AccountMeta :=
  if e < 0 then xs.take (xs.length - (-e).toNat) else xs.take e.toNat

/-- The proof-path accounts: `proof.map(node => ({pubkey, isSigner:false,
isWritable:false})).slice(0, proof.length - canopyDepth)`. -/
def proofPathOf (proof : List String) (canopyDepth : Nat) : List AccountMeta :=
  jsSliceTo
    (proof.map fun node => { pubkey := PublicKey.mk node, isSigner := false, isWritable := false })
    ((proof.length : Int) - (canopyDepth : Int))

/-- The explorer link printed after each confirmed submission. -/
def explorerLink (txSignature : String) : String :=
  "https://explorer.solana.com/tx/" ++ txSignature ++ "?cluster=devnet"

/-! ## The four phases and `main` -/

/-- The alloc-tree instruction returned by `createAllocTreeIx` on success. -/
def allocTreeIxOf (merkleTree payer : PublicKey) (pair : ValidDepthSizePair)
    (canopyDepth : Nat) : Instruction :=
  .allocTree merkleTree payer pair.maxDepth pair.maxBufferSize canopyDepth

/-- The `createCreateTreeInstruction` built by `createTree`. -/
def createTreeIxOf (treeKeypair : Keypair) (payer : Keypair)
    (pair : ValidDepthSizePair) : Instruction :=
  .createTree
    { treeAuthority :=
        (PublicKey.findProgramAddressSync [treeKeypair.publicKey.key] BUBBLEGUM_PROGRAM_ID).1
      merkleTree := treeKeypair.publicKey
      payer := payer.publicKey
      treeCreator := payer.publicKey
      logWrapper := SPL_NOOP_PROGRAM_ID
      compressionProgram := SPL_ACCOUNT_COMPRESSION_PROGRAM_ID }
    { maxBufferSize := pair.maxBufferSize
      maxDepth := pair.maxDepth
      public := false }
    BUBBLEGUM_PROGRAM_ID

/-- The transaction submitted by `createTree`. -/
def createTreeTxOf (treeKeypair : Keypair) (payer : Keypair)
    (pair : ValidDepthSizePair) (canopyDepth : Nat) : Transaction :=
  { instructions :=
      [allocTreeIxOf treeKeypair.publicKey payer.publicKey pair canopyDepth,
       createTreeIxOf treeKeypair payer pair]
    feePayer := some payer.publicKey }

/-- `createTree(connection, payer, maxDepthSizePair, canopyDepth)`: allocate
the tree account and initialize it through the Bubblegum program.  The
`createAllocTreeIx` round trip happens before the `try` block; the submission
and the two `console.log` lines are inside it. -/
def createTreeP (w : World) (n : Nat) (payer : Keypair) (maxDepthSizePair : ValidDepthSizePair)
    (canopyDepth : Nat) : Except Err PublicKey × List Event × Nat :=
  let treeKeypair := w.generatedTreeKeypair
  let allocCall := NetCall.allocTreeFetch treeKeypair.publicKey payer.publicKey
  match w.allocTreeResult n with
  | .error e =>
    -- `createAllocTreeIx` rejected: outside the try block, no catch runs.
    (.error e, [.issue allocCall, .complete allocCall], n + 1)
  | .ok _ =>
    let tx := createTreeTxOf treeKeypair payer maxDepthSizePair canopyDepth
    let signers := [treeKeypair.publicKey, payer.publicKey]
    let sendCall := NetCall.sendTransaction tx signers
    match w.sendTx (n + 1) tx signers with
    | .ok txSignature =>
      (.ok treeKeypair.publicKey,
       [.issue allocCall, .complete allocCall, .issue sendCall, .complete sendCall,
        .log (explorerLink txSignature),
        .log ("Tree Address: " ++ treeKeypair.publicKey.toBase58)],
       n + 2)
    | .error e =>
      (.error e,
       [.issue allocCall, .complete allocCall, .issue sendCall, .complete sendCall,
        .logError ("\nFailed to create merkle tree: " ++ e)],
       n + 2)

/-- The `createMintV1Instruction` built by `mintCompressedNFT`. -/
def mintIxOf (payer : Keypair) (treeAddress : PublicKey) : Instruction :=
  .mintV1
    { payer := payer.publicKey
      merkleTree := treeAddress
      treeAuthority :=
        (PublicKey.findProgramAddressSync [treeAddress.key] BUBBLEGUM_PROGRAM_ID).1
      treeDelegate := payer.publicKey
      leafOwner := payer.publicKey
      leafDelegate := payer.publicKey
      compressionProgram := SPL_ACCOUNT_COMPRESSION_PROGRAM_ID
      logWrapper := SPL_NOOP_PROGRAM_ID }
    { message := createCompressedNFTMetadata payer.publicKey }

/-- The transaction submitted by `mintCompressedNFT`. -/
def mintTxOf (payer : Keypair) (treeAddress : PublicKey) : Transaction :=
  { instructions := [mintIxOf payer treeAddress], feePayer := some payer.publicKey }

/-- `mintCompressedNFT(connection, payer, treeAddress)`: submit the mint
transaction, print the explorer link, then extract the asset id from the
transaction logs.  The whole body is inside the `try` block. -/
def mintP (w : World) (n : Nat) (payer : Keypair) (treeAddress : PublicKey) :
    Except Err PublicKey × List Event × Nat :=
  let tx := mintTxOf payer treeAddress
  let sendCall := NetCall.sendTransaction tx [payer.publicKey]
  match w.sendTx n tx [payer.publicKey] with
  | .error e =>
    (.error e,
     [.issue sendCall, .complete sendCall,
      .logError ("\nFailed to mint compressed NFT: " ++ e)],
     n + 1)
  | .ok txSignature =>
    let exCall := NetCall.fetchTransaction txSignature treeAddress
    match w.extractAsset (n + 1) txSignature treeAddress with
    | .ok assetId =>
      (.ok assetId,
       [.issue sendCall, .complete sendCall, .log (explorerLink txSignature),
        .issue exCall, .complete exCall],
       n + 2)
    | .error e =>
      (.error e,
       [.issue sendCall, .complete sendCall, .log (explorerLink txSignature),
        .issue exCall, .complete exCall,
        .logError ("\nFailed to mint compressed NFT: " ++ e)],
       n + 2)

/-- `Promise.all([heliusApi("getAsset", {id}), heliusApi("getAssetProof", {id})])`:
both requests are issued back to back before either settles. -/
def heliusPairP (w : World) (n : Nat) (id : String) :
    Except Err (AssetData × AssetProofData) × List Event × Nat :=
  let cA := NetCall.getAsset id
  let cP := NetCall.getAssetProof id
  match w.getAsset n id, w.getAssetProof (n + 1) id with
  | .ok a, .ok p =>
    (.ok (a, p), [.issue cA, .issue cP, .complete cA, .complete cP], n + 2)
  | .error e, _ =>
    (.error e, [.issue cA, .issue cP, .complete cA], n + 2)
  | .ok _, .error e =>
    (.error e, [.issue cA, .issue cP, .complete cA, .complete cP], n + 2)

/-- The `createTransferInstruction` built by `transferCompressedNFT` from the
fetched asset data, proof data and tree account. -/
def transferIxOf (assetData : AssetData) (assetProofData : AssetProofData)
    (treeAccount : TreeAccountData) (newLeafOwner : PublicKey) : Instruction :=
  let treePublicKey := PublicKey.mk assetData.compression.tree
  let ownerPublicKey := PublicKey.mk assetData.ownership.owner
  let delegatePublicKey :=
    match assetData.ownership.delegate with
    | some d => PublicKey.mk d
    | none => ownerPublicKey
  let canopyDepth := treeAccount.canopyDepth.getD 0
  .transfer
    { merkleTree := treePublicKey
      treeAuthority := treeAccount.authority
      leafOwner := ownerPublicKey
      leafDelegate := delegatePublicKey
      newLeafOwner := newLeafOwner
      logWrapper := SPL_NOOP_PROGRAM_ID
      compressionProgram := SPL_ACCOUNT_COMPRESSION_PROGRAM_ID
      anchorRemainingAccounts := proofPathOf assetProofData.proof canopyDepth }
    { root := trimKey assetProofData.root
      dataHash := trimKey assetData.compression.data_hash
      creatorHash := trimKey assetData.compression.creator_hash
      nonce := assetData.compression.leaf_id
      index := assetData.compression.leaf_id }
    BUBBLEGUM_PROGRAM_ID

/-- The transaction submitted by `transferCompressedNFT`. -/
def transferTxOf (assetData : AssetData) (assetProofData : AssetProofData)
    (treeAccount : TreeAccountData) (sender receiver : Keypair) : Transaction :=
  { instructions := [transferIxOf assetData assetProofData treeAccount receiver.publicKey]
    feePayer := some sender.publicKey }

/-- `transferCompressedNFT(connection, assetId, sender, receiver)`.  The whole
body is inside the `try` block. -/
def transferP (w : World) (n : Nat) (assetId : PublicKey) (sender receiver : Keypair) :
    Except Err Unit × List Event × Nat :=
  match heliusPairP w n assetId.toBase58 with
  | (.error e, t, m) =>
    (.error e, t ++ [.logError ("\nFailed to transfer nft: " ++ e)], m)
  | (.ok (assetData, assetProofData), t, m) =>
    let treePublicKey := PublicKey.mk assetData.compression.tree
    let fCall := NetCall.fetchAccount treePublicKey
    match w.fetchTreeAccount m treePublicKey with
    | .error e =>
      (.error e,
       t ++ [.issue fCall, .complete fCall, .logError ("\nFailed to transfer nft: " ++ e)],
       m + 1)
    | .ok treeAccount =>
      let tx := transferTxOf assetData assetProofData treeAccount sender receiver
      let sendCall := NetCall.sendTransaction tx [sender.publicKey]
      match w.sendTx (m + 1) tx [sender.publicKey] with
      | .error e =>
        (.error e,
         t ++ [.issue fCall, .complete fCall, .issue sendCall, .complete sendCall,
               .logError ("\nFailed to transfer nft: " ++ e)],
         m + 2)
      | .ok txSignature =>
        (.ok (),
         t ++ [.issue fCall, .complete fCall, .issue sendCall, .complete sendCall,
               .log (explorerLink txSignature)],
         m + 2)

/-- The `createBurnInstruction` built by `burnCompressedNFT`. -/
def burnIxOf (assetData : AssetData) (assetProofData : AssetProofData)
    (treeAccount : TreeAccountData) : Instruction :=
  let treePublicKey := PublicKey.mk assetData.compression.tree
  let ownerPublicKey := PublicKey.mk assetData.ownership.owner
  let delegatePublicKey :=
    match assetData.ownership.delegate with
    | some d => PublicKey.mk d
    | none => ownerPublicKey
  let canopyDepth := treeAccount.canopyDepth.getD 0
  .burn
    { treeAuthority := treeAccount.authority
      leafOwner := ownerPublicKey
      leafDelegate := delegatePublicKey
      merkleTree := treePublicKey
      logWrapper := SPL_NOOP_PROGRAM_ID
      compressionProgram := SPL_ACCOUNT_COMPRESSION_PROGRAM_ID
      anchorRemainingAccounts := proofPathOf assetProofData.proof canopyDepth }
    { root := trimKey assetProofData.root
      dataHash := trimKey assetData.compression.data_hash
      creatorHash := trimKey assetData.compression.creator_hash
      nonce := assetData.compression.leaf_id
      index := assetData.compression.leaf_id }
    BUBBLEGUM_PROGRAM_ID

/-- The transaction submitted by `burnCompressedNFT`. -/
def burnTxOf (assetData : AssetData) (assetProofData : AssetProofData)
    (treeAccount : TreeAccountData) (payer : Keypair) : Transaction :=
  { instructions := [burnIxOf assetData assetProofData treeAccount]
    feePayer := some payer.publicKey }

/-- `burnCompressedNFT(connection, assetId, payer)`.  The whole body is inside
the `try` block. -/
def burnP (w : World) (n : Nat) (assetId : PublicKey) (payer : Keypair) :
    Except Err Unit × List Event × Nat :=
  match heliusPairP w n assetId.toBase58 with
  | (.error e, t, m) =>
    (.error e, t ++ [.logError ("\nFailed to burn NFT: " ++ e)], m)
  | (.ok (assetData, assetProofData), t, m) =>
    let treePublicKey := PublicKey.mk assetData.compression.tree
    let fCall := NetCall.fetchAccount treePublicKey
    match w.fetchTreeAccount m treePublicKey with
    | .error e =>
      (.error e,
       t ++ [.issue fCall, .complete fCall, .logError ("\nFailed to burn NFT: " ++ e)],
       m + 1)
    | .ok treeAccount =>
      let tx := burnTxOf assetData assetProofData treeAccount payer
      let sendCall := NetCall.sendTransaction tx [payer.publicKey]
      match w.sendTx (m + 1) tx [payer.publicKey] with
      | .error e =>
        (.error e,
         t ++ [.issue fCall, .complete fCall, .issue sendCall, .complete sendCall,
               .logError ("\nFailed to burn NFT: " ++ e)],
         m + 2)
      | .ok txSignature =>
        (.ok (),
         t ++ [.issue fCall, .complete fCall, .issue sendCall, .complete sendCall,
               .log (explorerLink txSignature)],
         m + 2)

/-- `main()`: wallets, un-awaited airdrop, then create tree → mint → mint →
transfer → burn, each awaited; an awaited rejection aborts the run (there is
no catch in `main`).  The airdrop request consumes call counter 0 and its
completion is never awaited. -/
def mainRun (w : World) : Except Err Unit × List Event :=
  let wallet := w.keypair "Wallet_1"
  let wallet2 := w.keypair "Wallet_2"
  let t0 : List Event := [.issue (NetCall.airdrop wallet.publicKey)]
  let maxDepthSizePair : ValidDepthSizePair := { maxDepth := 3, maxBufferSize := 8 }
  let canopyDepth := 0
  match createTreeP w 1 wallet maxDepthSizePair canopyDepth with
  | (.error e, t1, _) => (.error e, t0 ++ t1)
  | (.ok treeAddress, t1, n1) =>
    match mintP w n1 wallet treeAddress with
    | (.error e, t2, _) => (.error e, t0 ++ t1 ++ t2)
    | (.ok assetId1, t2, n2) =>
      match mintP w n2 wallet treeAddress with
      | (.error e, t3, _) => (.error e, t0 ++ t1 ++ t2 ++ t3)
      | (.ok assetId2, t3, n3) =>
        match transferP w n3 assetId1 wallet wallet2 with
        | (.error e, t4, _) => (.error e, t0 ++ t1 ++ t2 ++ t3 ++ t4)
        | (.ok _, t4, n4) =>
          match burnP w n4 assetId2 wallet with
          | (r, t5, _) => (r, t0 ++ t1 ++ t2 ++ t3 ++ t4 ++ t5)

/-! ## Trace predicates -/

/-- Scanning forward from just after `issue c`: the request `c` must settle
before any further request is issued. -/
def waitsFor (c : NetCall) (l : List Event) : Bool :=
  match l with
  | [] => true
  | e :: rest =>
    match e with
    | .issue _ => false
    | .complete c2 => decide (c2 = c) || waitsFor c rest
    | _ => waitsFor c rest

/-- Strict sequentiality: every issued request settles before the next request
of the run is issued. -/
def sequentialB (l : List Event) : Bool :=
  match l with
  | [] => true
  | e :: rest =>
    match e with
    | .issue c => waitsFor c rest && sequentialB rest
    | _ => sequentialB rest

/-- Sequentiality up to the two deliberate exceptions in the code: the airdrop
request is never awaited, and the two indexing-API requests of a `Promise.all`
pair are issued back to back (both must still settle before any later request
is issued). -/
def seqExceptB : List Event → Bool
  | [] => true
  | .issue (.airdrop _) :: rest => seqExceptB rest
  | .issue (.getAsset i) :: .issue (.getAssetProof j) :: rest =>
    decide (i = j) && waitsFor (.getAsset i) rest && waitsFor (.getAssetProof j) rest
      && seqExceptB rest
  | .issue c :: rest => waitsFor c rest && seqExceptB rest
  | _ :: rest => seqExceptB rest

/-- The instruction-kind lists of the submitted transactions, in issuance order. -/
def submittedKinds (l : List Event) : List (List IxKind) :=
  match l with
  | [] => []
  | e :: rest =>
    match e with
    | .issue (.sendTransaction tx _) => tx.instructions.map Instruction.kind :: submittedKinds rest
    | _ => submittedKinds rest

/-- The asset ids carried by the issued `getAsset` requests, in issuance order. -/
def getAssetIdsOf (l : List Event) : List String :=
  match l with
  | [] => []
  | e :: rest =>
    match e with
    | .issue (.getAsset i) => i :: getAssetIdsOf rest
    | _ => getAssetIdsOf rest

/-- The requests issued in a trace, in order. -/
def issuesOf (l : List Event) : List NetCall :=
  match l with
  | [] => []
  | e :: rest =>
    match e with
    | .issue c => c :: issuesOf rest
    | _ => issuesOf rest

/-- Number of `console.error` lines in a trace. -/
def countLogErrors (l : List Event) : Nat :=
  match l with
  | [] => 0
  | e :: rest =>
    match e with
    | .logError _ => countLogErrors rest + 1
    | _ => countLogErrors rest

/-- `true` unless the event issues an indexing-API request. -/
def notHeliusIssue (ev : Event) : Bool :=
  match ev with
  | .issue (.getAsset _) => false
  | .issue (.getAssetProof _) => false
  | _ => true

/-! ## A concrete world where every call succeeds -/

/-- A world whose every remote call succeeds with small concrete data; used to
evaluate the interpreter on closed inputs. -/
def cw : World where
  keypair := fun name => ⟨⟨name⟩⟩
  generatedTreeKeypair := ⟨⟨"TREE"⟩⟩
  allocTreeResult := fun _ => .ok ()
  sendTx := fun n _ _ => .ok ("sig" ++ toString n)
  extractAsset := fun n _ _ => .ok ⟨"asset" ++ toString n⟩
  getAsset := fun _ _ =>
    .ok { compression := { tree := "TREE", data_hash := "dh", creator_hash := "ch", leaf_id := 0 }
          ownership := { owner := "Wallet_1", delegate := none } }
  getAssetProof := fun _ _ => .ok { proof := ["p1", "p2", "p3"], root := "rt" }
  fetchTreeAccount := fun _ _ => .ok { authority := ⟨"auth"⟩, canopyDepth := some 0 }

example : (mainRun cw).1 = Except.ok () := by rfl

example : sequentialB (mainRun cw).2 = false := by rfl

example : seqExceptB (mainRun cw).2 = true := by rfl

example : submittedKinds (mainRun cw).2 =
    [[.allocTree, .createTree], [.mintV1], [.mintV1], [.transfer], [.burn]] := by rfl

/-! ## Instruction projections -/

/-- The `anchorRemainingAccounts` (proof path) attached to a transfer or burn
instruction. -/
def Instruction.remainingAccountsOf : Instruction → List AccountMeta
  | .transfer acc _ _ => acc.anchorRemainingAccounts
  | .burn acc _ _ => acc.anchorRemainingAccounts
  | _ => []

/-- The `leafDelegate` account of an instruction that has one. -/
def Instruction.leafDelegateOf : Instruction → Option PublicKey
  | .mintV1 acc _ => some acc.leafDelegate
  | .transfer acc _ _ => some acc.leafDelegate
  | .burn acc _ _ => some acc.leafDelegate
  | _ => none

/-- The `nonce` argument of a transfer or burn instruction. -/
def Instruction.nonceOf : Instruction → Option Nat
  | .transfer _ args _ => some args.nonce
  | .burn _ args _ => some args.nonce
  | _ => none

/-- The `index` argument of a transfer or burn instruction. -/
def Instruction.indexOf : Instruction → Option Nat
  | .transfer _ args _ => some args.index
  | .burn _ args _ => some args.index
  | _ => none

/-- C8: in every invocation of `transferCompressedNFT` and `burnCompressedNFT`,
the proof accounts attached to the instruction are exactly the first
(proof length − canopy depth) proof nodes in API order, each non-signer and
non-writable; with canopy depth zero the whole proof is attached. -/
theorem proof_path_is_truncated_proof (assetData : AssetData) (assetProofData : AssetProofData)
    (treeAccount : TreeAccountData) (receiverPk : PublicKey)
    (h : treeAccount.canopyDepth.getD 0 ≤ assetProofData.proof.length) :
    ((transferIxOf assetData assetProofData treeAccount receiverPk).remainingAccountsOf =
      (assetProofData.proof.map fun node =>
          { pubkey := PublicKey.mk node, isSigner := false, isWritable := false }).take
        (assetProofData.proof.length - treeAccount.canopyDepth.getD 0) ∧
     (burnIxOf assetData assetProofData treeAccount).remainingAccountsOf =
      (assetProofData.proof.map fun node =>
          { pubkey := PublicKey.mk node, isSigner := false, isWritable := false }).take
        (assetProofData.proof.length - treeAccount.canopyDepth.getD 0)) ∧
    (treeAccount.canopyDepth.getD 0 = 0 →
      (transferIxOf assetData assetProofData treeAccount receiverPk).remainingAccountsOf =
        assetProofData.proof.map fun node =>
          { pubkey := PublicKey.mk node, isSigner := false, isWritable := false }) := by
  have hslice : proofPathOf assetProofData.proof (treeAccount.canopyDepth.getD 0) =
      (assetProofData.proof.map fun node =>
          { pubkey := PublicKey.mk node, isSigner := false, isWritable := false }).take
        (assetProofData.proof.length - treeAccount.canopyDepth.getD 0) := by
    unfold proofPathOf jsSliceTo
    rw [if_neg (by omega)]
    congr 1
    omega
  refine ⟨⟨?_, ?_⟩, ?_⟩
  · simpa [transferIxOf, Instruction.remainingAccountsOf] using hslice
  · simpa [burnIxOf, Instruction.remainingAccountsOf] using hslice
  · intro h0
    rw [transferIxOf]
    simp only [Instruction.remainingAccountsOf, h0]
    unfold proofPathOf jsSliceTo
    rw [if_neg (by omega)]
    rw [show (((assetProofData.proof.length : Int)) - ((0 : Nat) : Int)).toNat =
      assetProofData.proof.length by omega]
    exact List.take_of_length_le (by simp)

/-- Witness for C8 at a concrete proof and canopy depth. -/
theorem proof_path_is_truncated_proof_witness :
    (({ authority := ⟨"auth"⟩, canopyDepth := some 1 } : TreeAccountData).canopyDepth.getD 0 ≤
      ({ proof := ["p1", "p2", "p3"], root := "rt" } : AssetProofData).proof.length) ∧
    ((transferIxOf
        { compression := { tree := "T", data_hash := "dh", creator_hash := "ch", leaf_id := 4 }
          ownership := { owner := "O", delegate := none } }
        { proof := ["p1", "p2", "p3"], root := "rt" }
        { authority := ⟨"auth"⟩, canopyDepth := some 1 }
        ⟨"W2"⟩).remainingAccountsOf =
      [{ pubkey := ⟨"p1"⟩, isSigner := false, isWritable := false },
       { pubkey := ⟨"p2"⟩, isSigner := false, isWritable := false }]) := by
  refine ⟨by decide, ?_⟩
  have h := proof_path_is_truncated_proof
    { compression := { tree := "T", data_hash := "dh", creator_hash := "ch", leaf_id := 4 }
      ownership := { owner := "O", delegate := none } }
    { proof := ["p1", "p2", "p3"], root := "rt" }
    { authority := ⟨"auth"⟩, canopyDepth := some 1 }
    ⟨"W2"⟩ (by decide)
  rw [h.1.1]
  rfl

/-- C10: in every invocation of `transferCompressedNFT` and `burnCompressedNFT`,
when the fetched ownership record has no delegate the instruction's
`leafDelegate` falls back to the owner's key, and `nonce` and `index` are both
the asset's `leaf_id`. -/
theorem delegate_fallback_and_leaf_indices (assetData : AssetData)
    (assetProofData : AssetProofData) (treeAccount : TreeAccountData)
    (receiverPk : PublicKey) (h : assetData.ownership.delegate = none) :
    ((transferIxOf assetData assetProofData treeAccount receiverPk).leafDelegateOf =
        some (PublicKey.mk assetData.ownership.owner) ∧
     (burnIxOf assetData assetProofData treeAccount).leafDelegateOf =
        some (PublicKey.mk assetData.ownership.owner)) ∧
    ((transferIxOf assetData assetProofData treeAccount receiverPk).nonceOf =
        some assetData.compression.leaf_id ∧
     (transferIxOf assetData assetProofData treeAccount receiverPk).indexOf =
        some assetData.compression.leaf_id ∧
     (burnIxOf assetData assetProofData treeAccount).nonceOf =
        some assetData.compression.leaf_id ∧
     (burnIxOf assetData assetProofData treeAccount).indexOf =
        some assetData.compression.leaf_id) := by
  refine ⟨⟨?_, ?_⟩, ?_, ?_, ?_, ?_⟩ <;>
    simp [transferIxOf, burnIxOf, h, Instruction.leafDelegateOf, Instruction.nonceOf,
      Instruction.indexOf]

/-- Witness for C10 at a concrete asset with no delegate. -/
theorem delegate_fallback_and_leaf_indices_witness :
    (({ compression := { tree := "T", data_hash := "dh", creator_hash := "ch", leaf_id := 4 }
        ownership := { owner := "O", delegate := none } } : AssetData).ownership.delegate =
      none) ∧
    ((transferIxOf
        { compression := { tree := "T", data_hash := "dh", creator_hash := "ch", leaf_id := 4 }
          ownership := { owner := "O", delegate := none } }
        { proof := ["p1"], root := "rt" }
        { authority := ⟨"auth"⟩, canopyDepth := some 0 }
        ⟨"W2"⟩).leafDelegateOf = some (PublicKey.mk "O")) ∧
    ((burnIxOf
        { compression := { tree := "T", data_hash := "dh", creator_hash := "ch", leaf_id := 4 }
          ownership := { owner := "O", delegate := none } }
        { proof := ["p1"], root := "rt" }
        { authority := ⟨"auth"⟩, canopyDepth := some 0 }).nonceOf = some 4) := by
  have h := delegate_fallback_and_leaf_indices
    { compression := { tree := "T", data_hash := "dh", creator_hash := "ch", leaf_id := 4 }
      ownership := { owner := "O", delegate := none } }
    { proof := ["p1"], root := "rt" }
    { authority := ⟨"auth"⟩, canopyDepth := some 0 }
    ⟨"W2"⟩ rfl
  exact ⟨rfl, h.1.1, h.2.2.2.1⟩

/-- C5: every invocation of `transferCompressedNFT` and `burnCompressedNFT`
issues exactly one `getAsset` and exactly one `getAssetProof` request, each
carrying the base58 asset id, as its first two requests — before the tree
fetch and before any transaction is constructed and submitted; the remainder
of the phase issues no further indexing-API request. -/
theorem helius_requests_once_first (w : World) (n : Nat) (assetId : PublicKey)
    (sender receiver payer : Keypair) :
    (∃ rest, (transferP w n assetId sender receiver).2.1 =
        Event.issue (NetCall.getAsset assetId.toBase58) ::
          Event.issue (NetCall.getAssetProof assetId.toBase58) :: rest ∧
        rest.all notHeliusIssue = true) ∧
    (∃ rest, (burnP w n assetId payer).2.1 =
        Event.issue (NetCall.getAsset assetId.toBase58) ::
          Event.issue (NetCall.getAssetProof assetId.toBase58) :: rest ∧
        rest.all notHeliusIssue = true) := by
  constructor
  · unfold transferP heliusPairP
    cases hG : w.getAsset n assetId.toBase58 with
    | error e => exact ⟨_, rfl, rfl⟩
    | ok assetData =>
      cases hP : w.getAssetProof (n + 1) assetId.toBase58 with
      | error e => exact ⟨_, rfl, rfl⟩
      | ok assetProofData =>
        dsimp only
        cases hF : w.fetchTreeAccount (n + 2) (PublicKey.mk assetData.compression.tree) with
        | error e => exact ⟨_, rfl, rfl⟩
        | ok treeAccount =>
          dsimp only
          cases hS : w.sendTx (n + 3)
              (transferTxOf assetData assetProofData treeAccount sender receiver)
              [sender.publicKey] with
          | error e => exact ⟨_, rfl, rfl⟩
          | ok txSignature => exact ⟨_, rfl, rfl⟩
  · unfold burnP heliusPairP
    cases hG : w.getAsset n assetId.toBase58 with
    | error e => exact ⟨_, rfl, rfl⟩
    | ok assetData =>
      cases hP : w.getAssetProof (n + 1) assetId.toBase58 with
      | error e => exact ⟨_, rfl, rfl⟩
      | ok assetProofData =>
        dsimp only
        cases hF : w.fetchTreeAccount (n + 2) (PublicKey.mk assetData.compression.tree) with
        | error e => exact ⟨_, rfl, rfl⟩
        | ok treeAccount =>
          dsimp only
          cases hS : w.sendTx (n + 3)
              (burnTxOf assetData assetProofData treeAccount payer) [payer.publicKey] with
          | error e => exact ⟨_, rfl, rfl⟩
          | ok txSignature => exact ⟨_, rfl, rfl⟩

/-! ## Per-phase flow lemmas -/

/-- A successful `createTree` phase settles every request it issues before
returning, so any continuation sees a quiescent network. -/
theorem createTreeP_seq_ok (w : World) (n : Nat) (payer : Keypair)
    (pair : ValidDepthSizePair) (cd : Nat) (r : PublicKey)
    (h : (createTreeP w n payer pair cd).1 = Except.ok r) (tail : List Event) :
    seqExceptB ((createTreeP w n payer pair cd).2.1 ++ tail) = seqExceptB tail := by
  unfold createTreeP at h ⊢
  cases hA : w.allocTreeResult n with
  | error e => rw [hA] at h; exact absurd h (by simp)
  | ok u =>
    rw [hA] at h
    dsimp only at h ⊢
    cases hS : w.sendTx (n + 1) (createTreeTxOf w.generatedTreeKeypair payer pair cd)
        [w.generatedTreeKeypair.publicKey, payer.publicKey] with
    | error e => rw [hS] at h; exact absurd h (by simp)
    | ok txSignature => simp [seqExceptB, waitsFor]

/-- The `createTree` phase trace on its own (as the last piece of a run) obeys
the request flow. -/
theorem createTreeP_seq_end (w : World) (n : Nat) (payer : Keypair)
    (pair : ValidDepthSizePair) (cd : Nat) :
    seqExceptB (createTreeP w n payer pair cd).2.1 = true := by
  unfold createTreeP
  cases hA : w.allocTreeResult n with
  | error e => simp [seqExceptB, waitsFor]
  | ok u =>
    dsimp only
    cases hS : w.sendTx (n + 1) (createTreeTxOf w.generatedTreeKeypair payer pair cd)
        [w.generatedTreeKeypair.publicKey, payer.publicKey] with
    | error e => simp [seqExceptB, waitsFor]
    | ok txSignature => simp [seqExceptB, waitsFor]

/-- A successful mint phase settles every request it issues. -/
theorem mintP_seq_ok (w : World) (n : Nat) (payer : Keypair) (treeAddress : PublicKey)
    (a : PublicKey) (h : (mintP w n payer treeAddress).1 = Except.ok a) (tail : List Event) :
    seqExceptB ((mintP w n payer treeAddress).2.1 ++ tail) = seqExceptB tail := by
  unfold mintP at h ⊢
  dsimp only at h ⊢
  cases hS : w.sendTx n (mintTxOf payer treeAddress) [payer.publicKey] with
  | error e => rw [hS] at h; exact absurd h (by simp)
  | ok txSignature =>
    rw [hS] at h
    dsimp only at h ⊢
    cases hE : w.extractAsset (n + 1) txSignature treeAddress with
    | error e => rw [hE] at h; exact absurd h (by simp)
    | ok assetId => simp [seqExceptB, waitsFor]

/-- The mint phase trace on its own obeys the request flow. -/
theorem mintP_seq_end (w : World) (n : Nat) (payer : Keypair) (treeAddress : PublicKey) :
    seqExceptB (mintP w n payer treeAddress).2.1 = true := by
  unfold mintP
  dsimp only
  cases hS : w.sendTx n (mintTxOf payer treeAddress) [payer.publicKey] with
  | error e => simp [seqExceptB, waitsFor]
  | ok txSignature =>
    dsimp only
    cases hE : w.extractAsset (n + 1) txSignature treeAddress with
    | error e => simp [seqExceptB, waitsFor]
    | ok assetId => simp [seqExceptB, waitsFor]

/-- A successful transfer phase settles every request it issues. -/
theorem transferP_seq_ok (w : World) (n : Nat) (assetId : PublicKey)
    (sender receiver : Keypair)
    (h : (transferP w n assetId sender receiver).1 = Except.ok ()) (tail : List Event) :
    seqExceptB ((transferP w n assetId sender receiver).2.1 ++ tail) = seqExceptB tail := by
  unfold transferP heliusPairP at h ⊢
  cases hG : w.getAsset n assetId.toBase58 with
  | error e => rw [hG] at h; exact absurd h (by simp)
  | ok assetData =>
    rw [hG] at h
    cases hP : w.getAssetProof (n + 1) assetId.toBase58 with
    | error e => rw [hP] at h; exact absurd h (by simp)
    | ok assetProofData =>
      rw [hP] at h
      dsimp only at h ⊢
      cases hF : w.fetchTreeAccount (n + 2) (PublicKey.mk assetData.compression.tree) with
      | error e => rw [hF] at h; exact absurd h (by simp)
      | ok treeAccount =>
        rw [hF] at h
        dsimp only at h ⊢
        cases hS : w.sendTx (n + 3)
            (transferTxOf assetData assetProofData treeAccount sender receiver)
            [sender.publicKey] with
        | error e => rw [hS] at h; exact absurd h (by simp)
        | ok txSignature => simp [seqExceptB, waitsFor]

/-- The transfer phase trace on its own obeys the request flow. -/
theorem transferP_seq_end (w : World) (n : Nat) (assetId : PublicKey)
    (sender receiver : Keypair) :
    seqExceptB (transferP w n assetId sender receiver).2.1 = true := by
  unfold transferP heliusPairP
  cases hG : w.getAsset n assetId.toBase58 with
  | error e => simp [seqExceptB, waitsFor]
  | ok assetData =>
    cases hP : w.getAssetProof (n + 1) assetId.toBase58 with
    | error e => simp [seqExceptB, waitsFor]
    | ok assetProofData =>
      dsimp only
      cases hF : w.fetchTreeAccount (n + 2) (PublicKey.mk assetData.compression.tree) with
      | error e => simp [seqExceptB, waitsFor]
      | ok treeAccount =>
        dsimp only
        cases hS : w.sendTx (n + 3)
            (transferTxOf assetData assetProofData treeAccount sender receiver)
            [sender.publicKey] with
        | error e => simp [seqExceptB, waitsFor]
        | ok txSignature => simp [seqExceptB, waitsFor]

/-- The burn phase trace on its own obeys the request flow. -/
theorem burnP_seq_end (w : World) (n : Nat) (assetId : PublicKey) (payer : Keypair) :
    seqExceptB (burnP w n assetId payer).2.1 = true := by
  unfold burnP heliusPairP
  cases hG : w.getAsset n assetId.toBase58 with
  | error e => simp [seqExceptB, waitsFor]
  | ok assetData =>
    cases hP : w.getAssetProof (n + 1) assetId.toBase58 with
    | error e => simp [seqExceptB, waitsFor]
    | ok assetProofData =>
      dsimp only
      cases hF : w.fetchTreeAccount (n + 2) (PublicKey.mk assetData.compression.tree) with
      | error e => simp [seqExceptB, waitsFor]
      | ok treeAccount =>
        dsimp only
        cases hS : w.sendTx (n + 3)
            (burnTxOf assetData assetProofData treeAccount payer) [payer.publicKey] with
        | error e => simp [seqExceptB, waitsFor]
        | ok txSignature => simp [seqExceptB, waitsFor]

/-- C2 counterexample: on a run of `main` in which every remote call succeeds,
some network request is issued before the preceding request has completed (the
airdrop is never awaited, and each `Promise.all` pair issues its second request
before the first settles), so the strict-sequentiality claim fails. -/
theorem main_not_strictly_sequential : sequentialB (mainRun cw).2 = false := by rfl

/-- C2 (amended): every execution of `main` is strictly sequential except
that the airdrop request is issued without awaiting its completion and each
`Promise.all` pair in the transfer and burn phases issues its two indexing-API
requests back to back; those two requests and every other request still settle
before any later request is issued. -/
theorem main_requests_sequential_otherwise (w : World) :
    seqExceptB (mainRun w).2 = true := by
  unfold mainRun
  dsimp only
  rcases h1 : createTreeP w 1 (w.keypair "Wallet_1") ⟨3, 8⟩ 0 with ⟨r1, t1, n1⟩
  cases r1 with
  | error e =>
    have e1 := createTreeP_seq_end w 1 (w.keypair "Wallet_1") ⟨3, 8⟩ 0
    rw [h1] at e1
    simpa [seqExceptB] using e1
  | ok treeAddress =>
    dsimp only
    rcases h2 : mintP w n1 (w.keypair "Wallet_1") treeAddress with ⟨r2, t2, n2⟩
    cases r2 with
    | error e =>
      have e1 := createTreeP_seq_ok w 1 (w.keypair "Wallet_1") ⟨3, 8⟩ 0 treeAddress
        (by rw [h1]) t2
      rw [h1] at e1
      have e2 := mintP_seq_end w n1 (w.keypair "Wallet_1") treeAddress
      rw [h2] at e2
      simp only [List.append_assoc, List.cons_append, List.nil_append] at e1 e2 ⊢
      simp [seqExceptB, e1, e2]
    | ok assetId1 =>
      dsimp only
      rcases h3 : mintP w n2 (w.keypair "Wallet_1") treeAddress with ⟨r3, t3, n3⟩
      cases r3 with
      | error e =>
        have e1 := createTreeP_seq_ok w 1 (w.keypair "Wallet_1") ⟨3, 8⟩ 0 treeAddress
          (by rw [h1]) (t2 ++ t3)
        rw [h1] at e1
        have e2 := mintP_seq_ok w n1 (w.keypair "Wallet_1") treeAddress assetId1
          (by rw [h2]) t3
        rw [h2] at e2
        have e3 := mintP_seq_end w n2 (w.keypair "Wallet_1") treeAddress
        rw [h3] at e3
        simp only [List.append_assoc, List.cons_append, List.nil_append] at e1 e2 e3 ⊢
        simp [seqExceptB, e1, e2, e3]
      | ok assetId2 =>
        dsimp only
        rcases h4 : transferP w n3 assetId1 (w.keypair "Wallet_1") (w.keypair "Wallet_2")
          with ⟨r4, t4, n4⟩
        cases r4 with
        | error e =>
          have e1 := createTreeP_seq_ok w 1 (w.keypair "Wallet_1") ⟨3, 8⟩ 0 treeAddress
            (by rw [h1]) (t2 ++ t3 ++ t4)
          rw [h1] at e1
          have e2 := mintP_seq_ok w n1 (w.keypair "Wallet_1") treeAddress assetId1
            (by rw [h2]) (t3 ++ t4)
          rw [h2] at e2
          have e3 := mintP_seq_ok w n2 (w.keypair "Wallet_1") treeAddress assetId2
            (by rw [h3]) t4
          rw [h3] at e3
          have e4 := transferP_seq_end w n3 assetId1 (w.keypair "Wallet_1")
            (w.keypair "Wallet_2")
          rw [h4] at e4
          simp only [List.append_assoc, List.cons_append, List.nil_append] at e1 e2 e3 e4 ⊢
          simp [seqExceptB, e1, e2, e3, e4]
        | ok u =>
          dsimp only
          rcases h5 : burnP w n4 assetId2 (w.keypair "Wallet_1") with ⟨r5, t5, n5⟩
          have e1 := createTreeP_seq_ok w 1 (w.keypair "Wallet_1") ⟨3, 8⟩ 0 treeAddress
            (by rw [h1]) (t2 ++ t3 ++ t4 ++ t5)
          rw [h1] at e1
          have e2 := mintP_seq_ok w n1 (w.keypair "Wallet_1") treeAddress assetId1
            (by rw [h2]) (t3 ++ t4 ++ t5)
          rw [h2] at e2
          have e3 := mintP_seq_ok w n2 (w.keypair "Wallet_1") treeAddress assetId2
            (by rw [h3]) (t4 ++ t5)
          rw [h3] at e3
          have e4 := transferP_seq_ok w n3 assetId1 (w.keypair "Wallet_1")
            (w.keypair "Wallet_2") (by rw [h4]) t5
          rw [h4] at e4
          have e5 := burnP_seq_end w n4 assetId2 (w.keypair "Wallet_1")
          rw [h5] at e5
          simp only [List.append_assoc, List.cons_append, List.nil_append] at e1 e2 e3 e4 e5 ⊢
          simp [seqExceptB, e1, e2, e3, e4, e5]

/-- The last event of a trace. -/
def lastEvent (l : List Event) : Option Event :=
  match l with
  | [] => none
  | e :: rest =>
    match rest with
    | [] => some e
    | _ :: _ => lastEvent rest

/-- A world in which the round trip inside `createAllocTreeIx` rejects. -/
def cwAllocFail : World := { cw with allocTreeResult := fun _ => .error "rpc down" }

/-- A world in which every transaction submission rejects. -/
def cwSendFail : World := { cw with sendTx := fun _ _ _ => .error "boom" }

/-- C3 counterexample: in `createTree` the awaited `createAllocTreeIx` call
runs before the `try` block, so when its connection round trip rejects the
phase rethrows the error without logging any failure message — refuting the
claim that every error raised by a phase's remote calls is logged before being
rethrown. -/
theorem createTree_error_without_failure_log :
    (createTreeP cwAllocFail 1 (cwAllocFail.keypair "Wallet_1") ⟨3, 8⟩ 0).1 =
      Except.error "rpc down" ∧
    countLogErrors (createTreeP cwAllocFail 1 (cwAllocFail.keypair "Wallet_1") ⟨3, 8⟩ 0).2.1 =
      0 := by
  exact ⟨rfl, rfl⟩

/-- C3 (amended): for every phase, every error raised by a remote call inside
the phase's `try` block makes the phase log its human-readable failure message
as the final console line and rethrow that same error, with no retry (each
request of a phase is issued at most once) and no substituted error value;
the one exception forced by the code is `createTree`, whose awaited
`createAllocTreeIx` round trip runs before the `try` block, so its errors are
rethrown without any failure log. -/
theorem phases_log_and_rethrow :
    (∀ w n (payer : Keypair) pair cd e, w.allocTreeResult n = Except.error e →
      (createTreeP w n payer pair cd).1 = Except.error e ∧
      countLogErrors (createTreeP w n payer pair cd).2.1 = 0) ∧
    (∀ w n (payer : Keypair) pair cd e, w.allocTreeResult n = Except.ok () →
      (createTreeP w n payer pair cd).1 = Except.error e →
      lastEvent (createTreeP w n payer pair cd).2.1 =
        some (.logError ("\nFailed to create merkle tree: " ++ e))) ∧
    (∀ w n (payer : Keypair) tree e, (mintP w n payer tree).1 = Except.error e →
      lastEvent (mintP w n payer tree).2.1 =
        some (.logError ("\nFailed to mint compressed NFT: " ++ e))) ∧
    (∀ w n a (sender receiver : Keypair) e,
      (transferP w n a sender receiver).1 = Except.error e →
      lastEvent (transferP w n a sender receiver).2.1 =
        some (.logError ("\nFailed to transfer nft: " ++ e))) ∧
    (∀ w n a (payer : Keypair) e, (burnP w n a payer).1 = Except.error e →
      lastEvent (burnP w n a payer).2.1 =
        some (.logError ("\nFailed to burn NFT: " ++ e))) ∧
    (∀ w n (payer : Keypair) pair cd e, w.allocTreeResult n = Except.ok () →
      w.sendTx (n + 1) (createTreeTxOf w.generatedTreeKeypair payer pair cd)
          [w.generatedTreeKeypair.publicKey, payer.publicKey] = Except.error e →
      (createTreeP w n payer pair cd).1 = Except.error e) ∧
    (∀ w n (payer : Keypair) tree e,
      w.sendTx n (mintTxOf payer tree) [payer.publicKey] = Except.error e →
      (mintP w n payer tree).1 = Except.error e) ∧
    (∀ w n (payer : Keypair) tree txSignature e,
      w.sendTx n (mintTxOf payer tree) [payer.publicKey] = Except.ok txSignature →
      w.extractAsset (n + 1) txSignature tree = Except.error e →
      (mintP w n payer tree).1 = Except.error e) ∧
    (∀ w n a (sender receiver : Keypair) e, w.getAsset n a.toBase58 = Except.error e →
      (transferP w n a sender receiver).1 = Except.error e) ∧
    (∀ w n a (sender receiver : Keypair) assetData e,
      w.getAsset n a.toBase58 = Except.ok assetData →
      w.getAssetProof (n + 1) a.toBase58 = Except.error e →
      (transferP w n a sender receiver).1 = Except.error e) ∧
    (∀ w n a (sender receiver : Keypair) assetData assetProofData e,
      w.getAsset n a.toBase58 = Except.ok assetData →
      w.getAssetProof (n + 1) a.toBase58 = Except.ok assetProofData →
      w.fetchTreeAccount (n + 2) (PublicKey.mk assetData.compression.tree) =
        Except.error e →
      (transferP w n a sender receiver).1 = Except.error e) ∧
    (∀ w n a (sender receiver : Keypair) assetData assetProofData treeAccount e,
      w.getAsset n a.toBase58 = Except.ok assetData →
      w.getAssetProof (n + 1) a.toBase58 = Except.ok assetProofData →
      w.fetchTreeAccount (n + 2) (PublicKey.mk assetData.compression.tree) =
        Except.ok treeAccount →
      w.sendTx (n + 3) (transferTxOf assetData assetProofData treeAccount sender receiver)
          [sender.publicKey] = Except.error e →
      (transferP w n a sender receiver).1 = Except.error e) ∧
    (∀ w n a (payer : Keypair) e, w.getAsset n a.toBase58 = Except.error e →
      (burnP w n a payer).1 = Except.error e) ∧
    (∀ w n a (payer : Keypair) assetData e,
      w.getAsset n a.toBase58 = Except.ok assetData →
      w.getAssetProof (n + 1) a.toBase58 = Except.error e →
      (burnP w n a payer).1 = Except.error e) ∧
    (∀ w n a (payer : Keypair) assetData assetProofData e,
      w.getAsset n a.toBase58 = Except.ok assetData →
      w.getAssetProof (n + 1) a.toBase58 = Except.ok assetProofData →
      w.fetchTreeAccount (n + 2) (PublicKey.mk assetData.compression.tree) =
        Except.error e →
      (burnP w n a payer).1 = Except.error e) ∧
    (∀ w n a (payer : Keypair) assetData assetProofData treeAccount e,
      w.getAsset n a.toBase58 = Except.ok assetData →
      w.getAssetProof (n + 1) a.toBase58 = Except.ok assetProofData →
      w.fetchTreeAccount (n + 2) (PublicKey.mk assetData.compression.tree) =
        Except.ok treeAccount →
      w.sendTx (n + 3) (burnTxOf assetData assetProofData treeAccount payer)
          [payer.publicKey] = Except.error e →
      (burnP w n a payer).1 = Except.error e) ∧
    (∀ w n (payer : Keypair) pair cd, (issuesOf (createTreeP w n payer pair cd).2.1).Nodup) ∧
    (∀ w n (payer : Keypair) tree, (issuesOf (mintP w n payer tree).2.1).Nodup) ∧
    (∀ w n a (sender receiver : Keypair),
      (issuesOf (transferP w n a sender receiver).2.1).Nodup) ∧
    (∀ w n a (payer : Keypair), (issuesOf (burnP w n a payer).2.1).Nodup) := by
  refine ⟨?_, ?_, ?_, ?_, ?_, ?_, ?_, ?_, ?_, ?_, ?_, ?_, ?_, ?_, ?_, ?_, ?_, ?_, ?_, ?_⟩
  · intro w n payer pair cd e hA
    unfold createTreeP
    rw [hA]
    exact ⟨rfl, rfl⟩
  · intro w n payer pair cd e hA hE
    unfold createTreeP at hE ⊢
    rw [hA] at hE ⊢
    dsimp only at hE ⊢
    cases hS : w.sendTx (n + 1) (createTreeTxOf w.generatedTreeKeypair payer pair cd)
        [w.generatedTreeKeypair.publicKey, payer.publicKey] with
    | error e2 =>
      rw [hS] at hE
      simp only at hE
      simp_all [lastEvent]
    | ok txSignature =>
      rw [hS] at hE
      simp at hE
  · intro w n payer tree e hE
    unfold mintP at hE ⊢
    dsimp only at hE ⊢
    cases hS : w.sendTx n (mintTxOf payer tree) [payer.publicKey] with
    | error e2 => simp_all [lastEvent]
    | ok txSignature =>
      dsimp only at hE ⊢
      cases hX : w.extractAsset (n + 1) txSignature tree with
      | error e2 => simp_all [lastEvent]
      | ok assetId => simp_all
  · intro w n a sender receiver e hE
    unfold transferP heliusPairP at hE ⊢
    cases hG : w.getAsset n a.toBase58 with
    | error e2 => simp_all [lastEvent]
    | ok assetData =>
      cases hP : w.getAssetProof (n + 1) a.toBase58 with
      | error e2 => simp_all [lastEvent]
      | ok assetProofData =>
        dsimp only at hE ⊢
        cases hF : w.fetchTreeAccount (n + 2) (PublicKey.mk assetData.compression.tree) with
        | error e2 => simp_all [lastEvent]
        | ok treeAccount =>
          dsimp only at hE ⊢
          cases hS : w.sendTx (n + 3)
              (transferTxOf assetData assetProofData treeAccount sender receiver)
              [sender.publicKey] with
          | error e2 => simp_all [lastEvent]
          | ok txSignature => simp_all
  · intro w n a payer e hE
    unfold burnP heliusPairP at hE ⊢
    cases hG : w.getAsset n a.toBase58 with
    | error e2 => simp_all [lastEvent]
    | ok assetData =>
      cases hP : w.getAssetProof (n + 1) a.toBase58 with
      | error e2 => simp_all [lastEvent]
      | ok assetProofData =>
        dsimp only at hE ⊢
        cases hF : w.fetchTreeAccount (n + 2) (PublicKey.mk assetData.compression.tree) with
        | error e2 => simp_all [lastEvent]
        | ok treeAccount =>
          dsimp only at hE ⊢
          cases hS : w.sendTx (n + 3)
              (burnTxOf assetData assetProofData treeAccount payer) [payer.publicKey] with
          | error e2 => simp_all [lastEvent]
          | ok txSignature => simp_all
  · intro w n payer pair cd e hA hS
    unfold createTreeP
    rw [hA]
    dsimp only
    rw [hS]
  · intro w n payer tree e hS
    unfold mintP
    dsimp only
    rw [hS]
  · intro w n payer tree txSignature e hS hX
    unfold mintP
    dsimp only
    rw [hS]
    dsimp only
    rw [hX]
  · intro w n a sender receiver e hG
    unfold transferP heliusPairP
    rw [hG]
  · intro w n a sender receiver assetData e hG hP
    unfold transferP heliusPairP
    rw [hG, hP]
  · intro w n a sender receiver assetData assetProofData e hG hP hF
    unfold transferP heliusPairP
    rw [hG, hP]
    dsimp only
    rw [hF]
  · intro w n a sender receiver assetData assetProofData treeAccount e hG hP hF hS
    unfold transferP heliusPairP
    rw [hG, hP]
    dsimp only
    rw [hF]
    dsimp only
    rw [hS]
  · intro w n a payer e hG
    unfold burnP heliusPairP
    rw [hG]
  · intro w n a payer assetData e hG hP
    unfold burnP heliusPairP
    rw [hG, hP]
  · intro w n a payer assetData assetProofData e hG hP hF
    unfold burnP heliusPairP
    rw [hG, hP]
    dsimp only
    rw [hF]
  · intro w n a payer assetData assetProofData treeAccount e hG hP hF hS
    unfold burnP heliusPairP
    rw [hG, hP]
    dsimp only
    rw [hF]
    dsimp only
    rw [hS]
  · intro w n payer pair cd
    unfold createTreeP
    cases hA : w.allocTreeResult n with
    | error e => simp [issuesOf]
    | ok u =>
      dsimp only
      cases hS : w.sendTx (n + 1) (createTreeTxOf w.generatedTreeKeypair payer pair cd)
          [w.generatedTreeKeypair.publicKey, payer.publicKey] with
      | error e => simp [issuesOf]
      | ok txSignature => simp [issuesOf]
  · intro w n payer tree
    unfold mintP
    dsimp only
    cases hS : w.sendTx n (mintTxOf payer tree) [payer.publicKey] with
    | error e => simp [issuesOf]
    | ok txSignature =>
      dsimp only
      cases hX : w.extractAsset (n + 1) txSignature tree with
      | error e => simp [issuesOf]
      | ok assetId => simp [issuesOf]
  · intro w n a sender receiver
    unfold transferP heliusPairP
    cases hG : w.getAsset n a.toBase58 with
    | error e => simp [issuesOf]
    | ok assetData =>
      cases hP : w.getAssetProof (n + 1) a.toBase58 with
      | error e => simp [issuesOf]
      | ok assetProofData =>
        dsimp only
        cases hF : w.fetchTreeAccount (n + 2) (PublicKey.mk assetData.compression.tree) with
        | error e => simp [issuesOf]
        | ok treeAccount =>
          dsimp only
          cases hS : w.sendTx (n + 3)
              (transferTxOf assetData assetProofData treeAccount sender receiver)
              [sender.publicKey] with
          | error e => simp [issuesOf]
          | ok txSignature => simp [issuesOf]
  · intro w n a payer
    unfold burnP heliusPairP
    cases hG : w.getAsset n a.toBase58 with
    | error e => simp [issuesOf]
    | ok assetData =>
      cases hP : w.getAssetProof (n + 1) a.toBase58 with
      | error e => simp [issuesOf]
      | ok assetProofData =>
        dsimp only
        cases hF : w.fetchTreeAccount (n + 2) (PublicKey.mk assetData.compression.tree) with
        | error e => simp [issuesOf]
        | ok treeAccount =>
          dsimp only
          cases hS : w.sendTx (n + 3)
              (burnTxOf assetData assetProofData treeAccount payer) [payer.publicKey] with
          | error e => simp [issuesOf]
          | ok txSignature => simp [issuesOf]

/-- Witness for C3 (amended) at a world whose mint submission rejects. -/
theorem phases_log_and_rethrow_witness :
    (mintP cwSendFail 0 (cwSendFail.keypair "Wallet_1") ⟨"TREE"⟩).1 = Except.error "boom" ∧
    lastEvent (mintP cwSendFail 0 (cwSendFail.keypair "Wallet_1") ⟨"TREE"⟩).2.1 =
      some (.logError ("\nFailed to mint compressed NFT: " ++ "boom")) := by
  refine ⟨by rfl, ?_⟩
  exact phases_log_and_rethrow.2.2.1 cwSendFail 0 (cwSendFail.keypair "Wallet_1") ⟨"TREE"⟩
    "boom" (by rfl)

/-- C6: whenever a phase's transaction submission succeeds, the phase logs the
explorer link `https://explorer.solana.com/tx/<signature>?cluster=devnet` for
the confirmed signature, and the create-tree phase additionally logs the tree
account's address. -/
theorem explorer_links_logged :
    (∀ w n (payer : Keypair) pair cd txSignature, w.allocTreeResult n = Except.ok () →
      w.sendTx (n + 1) (createTreeTxOf w.generatedTreeKeypair payer pair cd)
          [w.generatedTreeKeypair.publicKey, payer.publicKey] = Except.ok txSignature →
      Event.log (explorerLink txSignature) ∈ (createTreeP w n payer pair cd).2.1 ∧
      Event.log ("Tree Address: " ++ w.generatedTreeKeypair.publicKey.toBase58) ∈
        (createTreeP w n payer pair cd).2.1) ∧
    (∀ w n (payer : Keypair) tree txSignature,
      w.sendTx n (mintTxOf payer tree) [payer.publicKey] = Except.ok txSignature →
      Event.log (explorerLink txSignature) ∈ (mintP w n payer tree).2.1) ∧
    (∀ w n a (sender receiver : Keypair) assetData assetProofData treeAccount txSignature,
      w.getAsset n a.toBase58 = Except.ok assetData →
      w.getAssetProof (n + 1) a.toBase58 = Except.ok assetProofData →
      w.fetchTreeAccount (n + 2) (PublicKey.mk assetData.compression.tree) =
        Except.ok treeAccount →
      w.sendTx (n + 3) (transferTxOf assetData assetProofData treeAccount sender receiver)
          [sender.publicKey] = Except.ok txSignature →
      Event.log (explorerLink txSignature) ∈ (transferP w n a sender receiver).2.1) ∧
    (∀ w n a (payer : Keypair) assetData assetProofData treeAccount txSignature,
      w.getAsset n a.toBase58 = Except.ok assetData →
      w.getAssetProof (n + 1) a.toBase58 = Except.ok assetProofData →
      w.fetchTreeAccount (n + 2) (PublicKey.mk assetData.compression.tree) =
        Except.ok treeAccount →
      w.sendTx (n + 3) (burnTxOf assetData assetProofData treeAccount payer)
          [payer.publicKey] = Except.ok txSignature →
      Event.log (explorerLink txSignature) ∈ (burnP w n a payer).2.1) := by
  refine ⟨?_, ?_, ?_, ?_⟩
  · intro w n payer pair cd txSignature hA hS
    unfold createTreeP
    rw [hA]
    dsimp only
    rw [hS]
    simp
  · intro w n payer tree txSignature hS
    unfold mintP
    dsimp only
    rw [hS]
    dsimp only
    cases hX : w.extractAsset (n + 1) txSignature tree with
    | error e => simp
    | ok assetId => simp
  · intro w n a sender receiver assetData assetProofData treeAccount txSignature hG hP hF hS
    unfold transferP heliusPairP
    rw [hG, hP]
    dsimp only
    rw [hF]
    dsimp only
    rw [hS]
    simp
  · intro w n a payer assetData assetProofData treeAccount txSignature hG hP hF hS
    unfold burnP heliusPairP
    rw [hG, hP]
    dsimp only
    rw [hF]
    dsimp only
    rw [hS]
    simp

/-- Witness for C6 at the all-success world. -/
theorem explorer_links_logged_witness :
    cw.allocTreeResult 1 = Except.ok () ∧
    cw.sendTx 2 (createTreeTxOf cw.generatedTreeKeypair (cw.keypair "Wallet_1") ⟨3, 8⟩ 0)
        [cw.generatedTreeKeypair.publicKey, (cw.keypair "Wallet_1").publicKey] =
      Except.ok "sig2" ∧
    Event.log (explorerLink "sig2") ∈
      (createTreeP cw 1 (cw.keypair "Wallet_1") ⟨3, 8⟩ 0).2.1 ∧
    Event.log ("Tree Address: " ++ cw.generatedTreeKeypair.publicKey.toBase58) ∈
      (createTreeP cw 1 (cw.keypair "Wallet_1") ⟨3, 8⟩ 0).2.1 := by
  have h := explorer_links_logged.1 cw 1 (cw.keypair "Wallet_1") ⟨3, 8⟩ 0 "sig2"
    (by rfl) (by rfl)
  exact ⟨rfl, rfl, h.1, h.2⟩

/-! ## Tree-parameter and mint-target checkers -/

/-- The tree-setup parameters the claim fixes: an `allocTree` instruction must
carry maxDepth 3, maxBufferSize 8 and canopy depth 0, and a `createTree`
instruction must carry maxDepth 3, maxBufferSize 8, `public := false` and the
payer as tree creator.  Other instructions are unconstrained. -/
def treeSetupOkIx (payerPk : PublicKey) (ix : Instruction) : Bool :=
  match ix with
  | .allocTree _ _ d b c => decide (d = 3) && decide (b = 8) && decide (c = 0)
  | .createTree acc args _ =>
    decide (args.maxDepth = 3) && decide (args.maxBufferSize = 8) &&
      decide (args.public = false) && decide (acc.treeCreator = payerPk)
  | _ => true

/-- Every instruction of a submitted transaction passes `treeSetupOkIx`. -/
def eventTreeSetupOk (payerPk : PublicKey) (ev : Event) : Bool :=
  match ev with
  | .issue (.sendTransaction tx _) => tx.instructions.all (treeSetupOkIx payerPk)
  | _ => true

/-- A `mintV1` instruction must target the given tree and derive the tree
authority as the Bubblegum PDA of that tree.  Other instructions are
unconstrained. -/
def mintTreeOkIx (tree : PublicKey) (ix : Instruction) : Bool :=
  match ix with
  | .mintV1 acc _ =>
    decide (acc.merkleTree = tree) &&
      decide (acc.treeAuthority =
        (PublicKey.findProgramAddressSync [tree.key] BUBBLEGUM_PROGRAM_ID).1)
  | _ => true

/-- Every instruction of a submitted transaction passes `mintTreeOkIx`. -/
def eventMintTreeOk (tree : PublicKey) (ev : Event) : Bool :=
  match ev with
  | .issue (.sendTransaction tx _) => tx.instructions.all (mintTreeOkIx tree)
  | _ => true

/-- `createTree` returns the generated tree keypair's public key. -/
theorem createTreeP_ok_addr (w : World) (n : Nat) (payer : Keypair)
    (pair : ValidDepthSizePair) (cd : Nat) (r : PublicKey)
    (h : (createTreeP w n payer pair cd).1 = Except.ok r) :
    r = w.generatedTreeKeypair.publicKey := by
  unfold createTreeP at h
  cases hA : w.allocTreeResult n with
  | error e => simp_all
  | ok u =>
    cases hS : w.sendTx (n + 1) (createTreeTxOf w.generatedTreeKeypair payer pair cd)
        [w.generatedTreeKeypair.publicKey, payer.publicKey] with
    | error e => simp_all
    | ok txSignature => simp_all

theorem createTreeP_treeSetup (w : World) (n : Nat) (payer : Keypair) :
    ((createTreeP w n payer ⟨3, 8⟩ 0).2.1).all (eventTreeSetupOk payer.publicKey) = true := by
  unfold createTreeP
  cases hA : w.allocTreeResult n with
  | error e => simp [eventTreeSetupOk]
  | ok u =>
    dsimp only
    cases hS : w.sendTx (n + 1) (createTreeTxOf w.generatedTreeKeypair payer ⟨3, 8⟩ 0)
        [w.generatedTreeKeypair.publicKey, payer.publicKey] with
    | error e =>
      simp [eventTreeSetupOk, treeSetupOkIx, createTreeTxOf, createTreeIxOf, allocTreeIxOf]
    | ok txSignature =>
      simp [eventTreeSetupOk, treeSetupOkIx, createTreeTxOf, createTreeIxOf, allocTreeIxOf]

theorem mintP_treeSetup (w : World) (n : Nat) (payer : Keypair) (tree : PublicKey)
    (pk : PublicKey) :
    ((mintP w n payer tree).2.1).all (eventTreeSetupOk pk) = true := by
  unfold mintP
  dsimp only
  cases hS : w.sendTx n (mintTxOf payer tree) [payer.publicKey] with
  | error e => simp [eventTreeSetupOk, treeSetupOkIx, mintTxOf, mintIxOf]
  | ok txSignature =>
    dsimp only
    cases hX : w.extractAsset (n + 1) txSignature tree with
    | error e => simp [eventTreeSetupOk, treeSetupOkIx, mintTxOf, mintIxOf]
    | ok assetId => simp [eventTreeSetupOk, treeSetupOkIx, mintTxOf, mintIxOf]

theorem transferP_treeSetup (w : World) (n : Nat) (a : PublicKey)
    (sender receiver : Keypair) (pk : PublicKey) :
    ((transferP w n a sender receiver).2.1).all (eventTreeSetupOk pk) = true := by
  unfold transferP heliusPairP
  cases hG : w.getAsset n a.toBase58 with
  | error e => simp [eventTreeSetupOk]
  | ok assetData =>
    cases hP : w.getAssetProof (n + 1) a.toBase58 with
    | error e => simp [eventTreeSetupOk]
    | ok assetProofData =>
      dsimp only
      cases hF : w.fetchTreeAccount (n + 2) (PublicKey.mk assetData.compression.tree) with
      | error e => simp [eventTreeSetupOk]
      | ok treeAccount =>
        dsimp only
        cases hS : w.sendTx (n + 3)
            (transferTxOf assetData assetProofData treeAccount sender receiver)
            [sender.publicKey] with
        | error e => simp [eventTreeSetupOk, treeSetupOkIx, transferTxOf, transferIxOf]
        | ok txSignature => simp [eventTreeSetupOk, treeSetupOkIx, transferTxOf, transferIxOf]

theorem burnP_treeSetup (w : World) (n : Nat) (a : PublicKey) (payer : Keypair)
    (pk : PublicKey) :
    ((burnP w n a payer).2.1).all (eventTreeSetupOk pk) = true := by
  unfold burnP heliusPairP
  cases hG : w.getAsset n a.toBase58 with
  | error e => simp [eventTreeSetupOk]
  | ok assetData =>
    cases hP : w.getAssetProof (n + 1) a.toBase58 with
    | error e => simp [eventTreeSetupOk]
    | ok assetProofData =>
      dsimp only
      cases hF : w.fetchTreeAccount (n + 2) (PublicKey.mk assetData.compression.tree) with
      | error e => simp [eventTreeSetupOk]
      | ok treeAccount =>
        dsimp only
        cases hS : w.sendTx (n + 3)
            (burnTxOf assetData assetProofData treeAccount payer) [payer.publicKey] with
        | error e => simp [eventTreeSetupOk, treeSetupOkIx, burnTxOf, burnIxOf]
        | ok txSignature => simp [eventTreeSetupOk, treeSetupOkIx, burnTxOf, burnIxOf]

theorem createTreeP_mintTarget (w : World) (n : Nat) (payer : Keypair)
    (pair : ValidDepthSizePair) (cd : Nat) (target : PublicKey) :
    ((createTreeP w n payer pair cd).2.1).all (eventMintTreeOk target) = true := by
  unfold createTreeP
  cases hA : w.allocTreeResult n with
  | error e => simp [eventMintTreeOk]
  | ok u =>
    dsimp only
    cases hS : w.sendTx (n + 1) (createTreeTxOf w.generatedTreeKeypair payer pair cd)
        [w.generatedTreeKeypair.publicKey, payer.publicKey] with
    | error e => simp [eventMintTreeOk, mintTreeOkIx, createTreeTxOf, createTreeIxOf, allocTreeIxOf]
    | ok txSignature =>
      simp [eventMintTreeOk, mintTreeOkIx, createTreeTxOf, createTreeIxOf, allocTreeIxOf]

theorem mintP_mintTarget (w : World) (n : Nat) (payer : Keypair) (tree : PublicKey) :
    ((mintP w n payer tree).2.1).all (eventMintTreeOk tree) = true := by
  unfold mintP
  dsimp only
  cases hS : w.sendTx n (mintTxOf payer tree) [payer.publicKey] with
  | error e => simp [eventMintTreeOk, mintTreeOkIx, mintTxOf, mintIxOf]
  | ok txSignature =>
    dsimp only
    cases hX : w.extractAsset (n + 1) txSignature tree with
    | error e => simp [eventMintTreeOk, mintTreeOkIx, mintTxOf, mintIxOf]
    | ok assetId => simp [eventMintTreeOk, mintTreeOkIx, mintTxOf, mintIxOf]

theorem transferP_mintTarget (w : World) (n : Nat) (a : PublicKey)
    (sender receiver : Keypair) (target : PublicKey) :
    ((transferP w n a sender receiver).2.1).all (eventMintTreeOk target) = true := by
  unfold transferP heliusPairP
  cases hG : w.getAsset n a.toBase58 with
  | error e => simp [eventMintTreeOk]
  | ok assetData =>
    cases hP : w.getAssetProof (n + 1) a.toBase58 with
    | error e => simp [eventMintTreeOk]
    | ok assetProofData =>
      dsimp only
      cases hF : w.fetchTreeAccount (n + 2) (PublicKey.mk assetData.compression.tree) with
      | error e => simp [eventMintTreeOk]
      | ok treeAccount =>
        dsimp only
        cases hS : w.sendTx (n + 3)
            (transferTxOf assetData assetProofData treeAccount sender receiver)
            [sender.publicKey] with
        | error e => simp [eventMintTreeOk, mintTreeOkIx, transferTxOf, transferIxOf]
        | ok txSignature => simp [eventMintTreeOk, mintTreeOkIx, transferTxOf, transferIxOf]

theorem burnP_mintTarget (w : World) (n : Nat) (a : PublicKey) (payer : Keypair)
    (target : PublicKey) :
    ((burnP w n a payer).2.1).all (eventMintTreeOk target) = true := by
  unfold burnP heliusPairP
  cases hG : w.getAsset n a.toBase58 with
  | error e => simp [eventMintTreeOk]
  | ok assetData =>
    cases hP : w.getAssetProof (n + 1) a.toBase58 with
    | error e => simp [eventMintTreeOk]
    | ok assetProofData =>
      dsimp only
      cases hF : w.fetchTreeAccount (n + 2) (PublicKey.mk assetData.compression.tree) with
      | error e => simp [eventMintTreeOk]
      | ok treeAccount =>
        dsimp only
        cases hS : w.sendTx (n + 3)
            (burnTxOf assetData assetProofData treeAccount payer) [payer.publicKey] with
        | error e => simp [eventMintTreeOk, mintTreeOkIx, burnTxOf, burnIxOf]
        | ok txSignature => simp [eventMintTreeOk, mintTreeOkIx, burnTxOf, burnIxOf]

/-- An event predicate that holds on the airdrop issue and on every event of
every phase trace of the run (with the phases at the arguments `main` passes)
holds on the whole run trace. -/
theorem mainRun_all (w : World) (p : Event → Bool)
    (hair : p (.issue (NetCall.airdrop (w.keypair "Wallet_1").publicKey)) = true)
    (hct : ((createTreeP w 1 (w.keypair "Wallet_1") ⟨3, 8⟩ 0).2.1).all p = true)
    (hmint : ∀ n,
      ((mintP w n (w.keypair "Wallet_1") w.generatedTreeKeypair.publicKey).2.1).all p = true)
    (htr : ∀ n a,
      ((transferP w n a (w.keypair "Wallet_1") (w.keypair "Wallet_2")).2.1).all p = true)
    (hbn : ∀ n a, ((burnP w n a (w.keypair "Wallet_1")).2.1).all p = true) :
    ((mainRun w).2.all p) = true := by
  unfold mainRun
  dsimp only
  rcases h1 : createTreeP w 1 (w.keypair "Wallet_1") ⟨3, 8⟩ 0 with ⟨r1, t1, n1⟩
  rw [h1] at hct
  cases r1 with
  | error e => simp_all
  | ok treeAddress =>
    have haddr := createTreeP_ok_addr w 1 (w.keypair "Wallet_1") ⟨3, 8⟩ 0 treeAddress
      (by rw [h1])
    subst haddr
    dsimp only
    rcases h2 : mintP w n1 (w.keypair "Wallet_1") w.generatedTreeKeypair.publicKey
      with ⟨r2, t2, n2⟩
    have hm1 := hmint n1
    rw [h2] at hm1
    cases r2 with
    | error e => simp_all
    | ok assetId1 =>
      dsimp only
      rcases h3 : mintP w n2 (w.keypair "Wallet_1") w.generatedTreeKeypair.publicKey
        with ⟨r3, t3, n3⟩
      have hm2 := hmint n2
      rw [h3] at hm2
      cases r3 with
      | error e => simp_all
      | ok assetId2 =>
        dsimp only
        rcases h4 : transferP w n3 assetId1 (w.keypair "Wallet_1") (w.keypair "Wallet_2")
          with ⟨r4, t4, n4⟩
        have ht := htr n3 assetId1
        rw [h4] at ht
        cases r4 with
        | error e => simp_all
        | ok u =>
          dsimp only
          rcases h5 : burnP w n4 assetId2 (w.keypair "Wallet_1") with ⟨r5, t5, n5⟩
          have hb := hbn n4 assetId2
          rw [h5] at hb
          simp_all

/-- C9: in every run of `main`, every submitted tree-setup instruction uses
maxDepth 3, maxBufferSize 8 and canopy depth 0, initializes the tree as
non-public, and sets the payer (Wallet_1) as tree creator. -/
theorem main_tree_parameters (w : World) :
    ((mainRun w).2.all (eventTreeSetupOk (w.keypair "Wallet_1").publicKey)) = true := by
  refine mainRun_all w _ (by rfl) (createTreeP_treeSetup w 1 (w.keypair "Wallet_1"))
    (fun n => mintP_treeSetup w n (w.keypair "Wallet_1") w.generatedTreeKeypair.publicKey _)
    (fun n a => transferP_treeSetup w n a (w.keypair "Wallet_1") (w.keypair "Wallet_2") _)
    (fun n a => burnP_treeSetup w n a (w.keypair "Wallet_1") _)

/-- C7: each mint instruction is built with `merkleTree` equal to the tree
address passed in and the tree authority as the Bubblegum PDA of that same
address; `createTree` returns the generated tree account's address, and every
mint submitted by `main` targets that address. -/
theorem mints_target_created_tree :
    (∀ (payer : Keypair) (tree : PublicKey), ∃ acc args,
      mintIxOf payer tree = Instruction.mintV1 acc args ∧
      acc.merkleTree = tree ∧
      acc.treeAuthority =
        (PublicKey.findProgramAddressSync [tree.key] BUBBLEGUM_PROGRAM_ID).1) ∧
    (∀ w n (payer : Keypair) pair cd r, (createTreeP w n payer pair cd).1 = Except.ok r →
      r = w.generatedTreeKeypair.publicKey) ∧
    (∀ w, ((mainRun w).2.all (eventMintTreeOk w.generatedTreeKeypair.publicKey)) = true) := by
  refine ⟨?_, ?_, ?_⟩
  · intro payer tree
    exact ⟨_, _, rfl, rfl, rfl⟩
  · intro w n payer pair cd r h
    exact createTreeP_ok_addr w n payer pair cd r h
  · intro w
    refine mainRun_all w _ (by rfl)
      (createTreeP_mintTarget w 1 (w.keypair "Wallet_1") ⟨3, 8⟩ 0 _)
      (fun n => mintP_mintTarget w n (w.keypair "Wallet_1") w.generatedTreeKeypair.publicKey)
      (fun n a => transferP_mintTarget w n a (w.keypair "Wallet_1") (w.keypair "Wallet_2") _)
      (fun n a => burnP_mintTarget w n a (w.keypair "Wallet_1") _)

/-- Witness for C7: on the all-success world, `createTree` returns the
generated tree address. -/
theorem mints_target_created_tree_witness :
    (createTreeP cw 1 (cw.keypair "Wallet_1") ⟨3, 8⟩ 0).1 =
      Except.ok (PublicKey.mk "TREE") ∧
    PublicKey.mk "TREE" = cw.generatedTreeKeypair.publicKey := by
  refine ⟨by rfl, ?_⟩
  exact mints_target_created_tree.2.1 cw 1 (cw.keypair "Wallet_1") ⟨3, 8⟩ 0
    (PublicKey.mk "TREE") (by rfl)

theorem createTreeP_ok_counter (w : World) (n : Nat) (payer : Keypair)
    (pair : ValidDepthSizePair) (cd : Nat) (r : PublicKey)
    (h : (createTreeP w n payer pair cd).1 = Except.ok r) :
    (createTreeP w n payer pair cd).2.2 = n + 2 := by
  unfold createTreeP at h ⊢
  cases hA : w.allocTreeResult n with
  | error e => simp_all
  | ok u =>
    cases hS : w.sendTx (n + 1) (createTreeTxOf w.generatedTreeKeypair payer pair cd)
        [w.generatedTreeKeypair.publicKey, payer.publicKey] with
    | error e => simp_all
    | ok txSignature => simp_all

theorem mintP_ok_counter (w : World) (n : Nat) (payer : Keypair) (tree : PublicKey)
    (a : PublicKey) (h : (mintP w n payer tree).1 = Except.ok a) :
    (mintP w n payer tree).2.2 = n + 2 := by
  unfold mintP at h ⊢
  dsimp only at h ⊢
  cases hS : w.sendTx n (mintTxOf payer tree) [payer.publicKey] with
  | error e => simp_all
  | ok txSignature =>
    cases hX : w.extractAsset (n + 1) txSignature tree with
    | error e => simp_all
    | ok assetId => simp_all

theorem transferP_ok_counter (w : World) (n : Nat) (a : PublicKey)
    (sender receiver : Keypair)
    (h : (transferP w n a sender receiver).1 = Except.ok ()) :
    (transferP w n a sender receiver).2.2 = n + 4 := by
  unfold transferP heliusPairP at h ⊢
  cases hG : w.getAsset n a.toBase58 with
  | error e => simp_all
  | ok assetData =>
    cases hP : w.getAssetProof (n + 1) a.toBase58 with
    | error e => simp_all
    | ok assetProofData =>
      dsimp only at h ⊢
      cases hF : w.fetchTreeAccount (n + 2) (PublicKey.mk assetData.compression.tree) with
      | error e => simp_all
      | ok treeAccount =>
        dsimp only at h ⊢
        cases hS : w.sendTx (n + 3)
            (transferTxOf assetData assetProofData treeAccount sender receiver)
            [sender.publicKey] with
        | error e => simp_all
        | ok txSignature => simp_all [Nat.add_assoc]

/-- C4: whenever some phase of `main` raises an error, the error becomes the
result of the run and the run's trace ends with the failing phase's trace: no
later phase is entered and nothing is constructed or submitted after it. -/
theorem main_aborts_on_error (w : World) (e : Err) (h : (mainRun w).1 = Except.error e) :
    ((createTreeP w 1 (w.keypair "Wallet_1") ⟨3, 8⟩ 0).1 = Except.error e ∧
      (mainRun w).2 = Event.issue (NetCall.airdrop (w.keypair "Wallet_1").publicKey) ::
        (createTreeP w 1 (w.keypair "Wallet_1") ⟨3, 8⟩ 0).2.1) ∨
    ((createTreeP w 1 (w.keypair "Wallet_1") ⟨3, 8⟩ 0).1 =
        Except.ok w.generatedTreeKeypair.publicKey ∧
      (mintP w 3 (w.keypair "Wallet_1") w.generatedTreeKeypair.publicKey).1 =
        Except.error e ∧
      (mainRun w).2 = Event.issue (NetCall.airdrop (w.keypair "Wallet_1").publicKey) ::
        ((createTreeP w 1 (w.keypair "Wallet_1") ⟨3, 8⟩ 0).2.1 ++
          (mintP w 3 (w.keypair "Wallet_1") w.generatedTreeKeypair.publicKey).2.1)) ∨
    (∃ a1,
      (mintP w 3 (w.keypair "Wallet_1") w.generatedTreeKeypair.publicKey).1 = Except.ok a1 ∧
      (mintP w 5 (w.keypair "Wallet_1") w.generatedTreeKeypair.publicKey).1 =
        Except.error e ∧
      (mainRun w).2 = Event.issue (NetCall.airdrop (w.keypair "Wallet_1").publicKey) ::
        ((createTreeP w 1 (w.keypair "Wallet_1") ⟨3, 8⟩ 0).2.1 ++
          (mintP w 3 (w.keypair "Wallet_1") w.generatedTreeKeypair.publicKey).2.1 ++
          (mintP w 5 (w.keypair "Wallet_1") w.generatedTreeKeypair.publicKey).2.1)) ∨
    (∃ a1 a2,
      (mintP w 3 (w.keypair "Wallet_1") w.generatedTreeKeypair.publicKey).1 = Except.ok a1 ∧
      (mintP w 5 (w.keypair "Wallet_1") w.generatedTreeKeypair.publicKey).1 = Except.ok a2 ∧
      (transferP w 7 a1 (w.keypair "Wallet_1") (w.keypair "Wallet_2")).1 = Except.error e ∧
      (mainRun w).2 = Event.issue (NetCall.airdrop (w.keypair "Wallet_1").publicKey) ::
        ((createTreeP w 1 (w.keypair "Wallet_1") ⟨3, 8⟩ 0).2.1 ++
          (mintP w 3 (w.keypair "Wallet_1") w.generatedTreeKeypair.publicKey).2.1 ++
          (mintP w 5 (w.keypair "Wallet_1") w.generatedTreeKeypair.publicKey).2.1 ++
          (transferP w 7 a1 (w.keypair "Wallet_1") (w.keypair "Wallet_2")).2.1)) ∨
    (∃ a1 a2,
      (mintP w 3 (w.keypair "Wallet_1") w.generatedTreeKeypair.publicKey).1 = Except.ok a1 ∧
      (mintP w 5 (w.keypair "Wallet_1") w.generatedTreeKeypair.publicKey).1 = Except.ok a2 ∧
      (transferP w 7 a1 (w.keypair "Wallet_1") (w.keypair "Wallet_2")).1 = Except.ok () ∧
      (burnP w 11 a2 (w.keypair "Wallet_1")).1 = Except.error e ∧
      (mainRun w).2 = Event.issue (NetCall.airdrop (w.keypair "Wallet_1").publicKey) ::
        ((createTreeP w 1 (w.keypair "Wallet_1") ⟨3, 8⟩ 0).2.1 ++
          (mintP w 3 (w.keypair "Wallet_1") w.generatedTreeKeypair.publicKey).2.1 ++
          (mintP w 5 (w.keypair "Wallet_1") w.generatedTreeKeypair.publicKey).2.1 ++
          (transferP w 7 a1 (w.keypair "Wallet_1") (w.keypair "Wallet_2")).2.1 ++
          (burnP w 11 a2 (w.keypair "Wallet_1")).2.1)) := by
  unfold mainRun at h ⊢
  dsimp only at h ⊢
  rcases h1 : createTreeP w 1 (w.keypair "Wallet_1") ⟨3, 8⟩ 0 with ⟨r1, t1, n1⟩
  rw [h1] at h
  cases r1 with
  | error e1 =>
    dsimp only at h
    simp only [Except.error.injEq] at h
    subst h
    left
    exact ⟨rfl, rfl⟩
  | ok treeAddress =>
    have haddr := createTreeP_ok_addr w 1 (w.keypair "Wallet_1") ⟨3, 8⟩ 0 treeAddress
      (by rw [h1])
    subst haddr
    have hcnt := createTreeP_ok_counter w 1 (w.keypair "Wallet_1") ⟨3, 8⟩ 0 _ (by rw [h1])
    rw [h1] at hcnt
    dsimp only at hcnt
    subst hcnt
    dsimp only at h ⊢
    rcases h2 : mintP w 3 (w.keypair "Wallet_1") w.generatedTreeKeypair.publicKey
      with ⟨r2, t2, n2⟩
    rw [h2] at h
    cases r2 with
    | error e2 =>
      dsimp only at h
      simp only [Except.error.injEq] at h
      subst h
      right; left
      exact ⟨rfl, rfl, rfl⟩
    | ok assetId1 =>
      have hcnt2 := mintP_ok_counter w 3 (w.keypair "Wallet_1")
        w.generatedTreeKeypair.publicKey _ (by rw [h2])
      rw [h2] at hcnt2
      dsimp only at hcnt2
      subst hcnt2
      dsimp only at h ⊢
      rcases h3 : mintP w 5 (w.keypair "Wallet_1") w.generatedTreeKeypair.publicKey
        with ⟨r3, t3, n3⟩
      rw [h3] at h
      cases r3 with
      | error e3 =>
        dsimp only at h
        simp only [Except.error.injEq] at h
        subst h
        right; right; left
        exact ⟨assetId1, rfl, rfl, rfl⟩
      | ok assetId2 =>
        have hcnt3 := mintP_ok_counter w 5 (w.keypair "Wallet_1")
          w.generatedTreeKeypair.publicKey _ (by rw [h3])
        rw [h3] at hcnt3
        dsimp only at hcnt3
        subst hcnt3
        dsimp only at h ⊢
        rcases h4 : transferP w 7 assetId1 (w.keypair "Wallet_1") (w.keypair "Wallet_2")
          with ⟨r4, t4, n4⟩
        rw [h4] at h
        cases r4 with
        | error e4 =>
          dsimp only at h
          simp only [Except.error.injEq] at h
          subst h
          right; right; right; left
          exact ⟨assetId1, assetId2, rfl, rfl, by rw [h4], by rw [h4]; rfl⟩
        | ok u =>
          have hcnt4 := transferP_ok_counter w 7 assetId1 (w.keypair "Wallet_1")
            (w.keypair "Wallet_2") (by rw [h4])
          rw [h4] at hcnt4
          dsimp only at hcnt4
          subst hcnt4
          dsimp only at h ⊢
          rcases h5 : burnP w 11 assetId2 (w.keypair "Wallet_1") with ⟨r5, t5, n5⟩
          rw [h5] at h
          cases r5 with
          | error e5 =>
            dsimp only at h
            simp only [Except.error.injEq] at h
            subst h
            right; right; right; right
            exact ⟨assetId1, assetId2, rfl, rfl, by rw [h4], by rw [h5], by rw [h4, h5]; rfl⟩
          | ok u2 =>
            dsimp only at h
            exact absurd h (by simp)

/-- Witness for C4 at a world whose every submission rejects (the create-tree
phase fails and the run stops there). -/
theorem main_aborts_on_error_witness :
    (mainRun cwSendFail).1 = Except.error "boom" ∧
    ((createTreeP cwSendFail 1 (cwSendFail.keypair "Wallet_1") ⟨3, 8⟩ 0).1 =
        Except.error "boom" ∧
      (mainRun cwSendFail).2 =
        Event.issue (NetCall.airdrop (cwSendFail.keypair "Wallet_1").publicKey) ::
          (createTreeP cwSendFail 1 (cwSendFail.keypair "Wallet_1") ⟨3, 8⟩ 0).2.1) := by
  refine ⟨by rfl, ?_⟩
  have h := main_aborts_on_error cwSendFail "boom" (by rfl)
  rcases h with h | h | h | h | h
  · exact h
  · exact absurd h.1 (by simp [createTreeP, cwSendFail, cw, createTreeTxOf])
  · rcases h with ⟨a1, h1, _⟩
    exact absurd h1 (by simp [mintP, cwSendFail, cw, mintTxOf])
  · rcases h with ⟨a1, a2, h1, _⟩
    exact absurd h1 (by simp [mintP, cwSendFail, cw, mintTxOf])
  · rcases h with ⟨a1, a2, h1, _⟩
    exact absurd h1 (by simp [mintP, cwSendFail, cw, mintTxOf])

theorem submittedKinds_append (l1 l2 : List Event) :
    submittedKinds (l1 ++ l2) = submittedKinds l1 ++ submittedKinds l2 := by
  induction l1 with
  | nil => simp [submittedKinds]
  | cons e l ih =>
    cases e with
    | issue c => cases c <;> simp [submittedKinds, ih]
    | complete c => simp [submittedKinds, ih]
    | log s => simp [submittedKinds, ih]
    | logError s => simp [submittedKinds, ih]

theorem getAssetIdsOf_append (l1 l2 : List Event) :
    getAssetIdsOf (l1 ++ l2) = getAssetIdsOf l1 ++ getAssetIdsOf l2 := by
  induction l1 with
  | nil => simp [getAssetIdsOf]
  | cons e l ih =>
    cases e with
    | issue c => cases c <;> simp [getAssetIdsOf, ih]
    | complete c => simp [getAssetIdsOf, ih]
    | log s => simp [getAssetIdsOf, ih]
    | logError s => simp [getAssetIdsOf, ih]

theorem createTreeP_kinds_ok (w : World) (n : Nat) (payer : Keypair)
    (pair : ValidDepthSizePair) (cd : Nat) (r : PublicKey)
    (h : (createTreeP w n payer pair cd).1 = Except.ok r) :
    submittedKinds (createTreeP w n payer pair cd).2.1 =
      [[IxKind.allocTree, IxKind.createTree]] := by
  unfold createTreeP at h ⊢
  cases hA : w.allocTreeResult n with
  | error e => simp_all
  | ok u =>
    cases hS : w.sendTx (n + 1) (createTreeTxOf w.generatedTreeKeypair payer pair cd)
        [w.generatedTreeKeypair.publicKey, payer.publicKey] with
    | error e => simp_all
    | ok txSignature =>
      simp_all [submittedKinds, createTreeTxOf, allocTreeIxOf, createTreeIxOf,
        Instruction.kind]

theorem mintP_kinds_ok (w : World) (n : Nat) (payer : Keypair) (tree : PublicKey)
    (a : PublicKey) (h : (mintP w n payer tree).1 = Except.ok a) :
    submittedKinds (mintP w n payer tree).2.1 = [[IxKind.mintV1]] := by
  unfold mintP at h ⊢
  dsimp only at h ⊢
  cases hS : w.sendTx n (mintTxOf payer tree) [payer.publicKey] with
  | error e => simp_all
  | ok txSignature =>
    cases hX : w.extractAsset (n + 1) txSignature tree with
    | error e => simp_all
    | ok assetId => simp_all [submittedKinds, mintTxOf, mintIxOf, Instruction.kind]

theorem transferP_kinds_ok (w : World) (n : Nat) (a : PublicKey)
    (sender receiver : Keypair)
    (h : (transferP w n a sender receiver).1 = Except.ok ()) :
    submittedKinds (transferP w n a sender receiver).2.1 = [[IxKind.transfer]] := by
  unfold transferP heliusPairP at h ⊢
  cases hG : w.getAsset n a.toBase58 with
  | error e => simp_all
  | ok assetData =>
    cases hP : w.getAssetProof (n + 1) a.toBase58 with
    | error e => simp_all
    | ok assetProofData =>
      dsimp only at h ⊢
      cases hF : w.fetchTreeAccount (n + 2) (PublicKey.mk assetData.compression.tree) with
      | error e => simp_all
      | ok treeAccount =>
        dsimp only at h ⊢
        cases hS : w.sendTx (n + 3)
            (transferTxOf assetData assetProofData treeAccount sender receiver)
            [sender.publicKey] with
        | error e => simp_all
        | ok txSignature =>
          simp_all [submittedKinds, transferTxOf, transferIxOf, Instruction.kind]

theorem burnP_kinds_ok (w : World) (n : Nat) (a : PublicKey) (payer : Keypair)
    (h : (burnP w n a payer).1 = Except.ok ()) :
    submittedKinds (burnP w n a payer).2.1 = [[IxKind.burn]] := by
  unfold burnP heliusPairP at h ⊢
  cases hG : w.getAsset n a.toBase58 with
  | error e => simp_all
  | ok assetData =>
    cases hP : w.getAssetProof (n + 1) a.toBase58 with
    | error e => simp_all
    | ok assetProofData =>
      dsimp only at h ⊢
      cases hF : w.fetchTreeAccount (n + 2) (PublicKey.mk assetData.compression.tree) with
      | error e => simp_all
      | ok treeAccount =>
        dsimp only at h ⊢
        cases hS : w.sendTx (n + 3)
            (burnTxOf assetData assetProofData treeAccount payer) [payer.publicKey] with
        | error e => simp_all
        | ok txSignature =>
          simp_all [submittedKinds, burnTxOf, burnIxOf, Instruction.kind]

theorem createTreeP_assetIds (w : World) (n : Nat) (payer : Keypair)
    (pair : ValidDepthSizePair) (cd : Nat) :
    getAssetIdsOf (createTreeP w n payer pair cd).2.1 = [] := by
  unfold createTreeP
  cases hA : w.allocTreeResult n with
  | error e => simp [getAssetIdsOf]
  | ok u =>
    dsimp only
    cases hS : w.sendTx (n + 1) (createTreeTxOf w.generatedTreeKeypair payer pair cd)
        [w.generatedTreeKeypair.publicKey, payer.publicKey] with
    | error e => simp [getAssetIdsOf]
    | ok txSignature => simp [getAssetIdsOf]

theorem mintP_assetIds (w : World) (n : Nat) (payer : Keypair) (tree : PublicKey) :
    getAssetIdsOf (mintP w n payer tree).2.1 = [] := by
  unfold mintP
  dsimp only
  cases hS : w.sendTx n (mintTxOf payer tree) [payer.publicKey] with
  | error e => simp [getAssetIdsOf]
  | ok txSignature =>
    dsimp only
    cases hX : w.extractAsset (n + 1) txSignature tree with
    | error e => simp [getAssetIdsOf]
    | ok assetId => simp [getAssetIdsOf]

theorem transferP_assetIds (w : World) (n : Nat) (a : PublicKey)
    (sender receiver : Keypair) :
    getAssetIdsOf (transferP w n a sender receiver).2.1 = [a.toBase58] := by
  unfold transferP heliusPairP
  cases hG : w.getAsset n a.toBase58 with
  | error e => simp [getAssetIdsOf]
  | ok assetData =>
    cases hP : w.getAssetProof (n + 1) a.toBase58 with
    | error e => simp [getAssetIdsOf]
    | ok assetProofData =>
      dsimp only
      cases hF : w.fetchTreeAccount (n + 2) (PublicKey.mk assetData.compression.tree) with
      | error e => simp [getAssetIdsOf]
      | ok treeAccount =>
        dsimp only
        cases hS : w.sendTx (n + 3)
            (transferTxOf assetData assetProofData treeAccount sender receiver)
            [sender.publicKey] with
        | error e => simp [getAssetIdsOf]
        | ok txSignature => simp [getAssetIdsOf]

theorem burnP_assetIds (w : World) (n : Nat) (a : PublicKey) (payer : Keypair) :
    getAssetIdsOf (burnP w n a payer).2.1 = [a.toBase58] := by
  unfold burnP heliusPairP
  cases hG : w.getAsset n a.toBase58 with
  | error e => simp [getAssetIdsOf]
  | ok assetData =>
    cases hP : w.getAssetProof (n + 1) a.toBase58 with
    | error e => simp [getAssetIdsOf]
    | ok assetProofData =>
      dsimp only
      cases hF : w.fetchTreeAccount (n + 2) (PublicKey.mk assetData.compression.tree) with
      | error e => simp [getAssetIdsOf]
      | ok treeAccount =>
        dsimp only
        cases hS : w.sendTx (n + 3)
            (burnTxOf assetData assetProofData treeAccount payer) [payer.publicKey] with
        | error e => simp [getAssetIdsOf]
        | ok txSignature => simp [getAssetIdsOf]

/-- C1: every run of `main` that completes without error performs exactly the
phases create tree → mint → mint → transfer → burn in that order: one
Merkle-tree account is created, two compressed NFTs are minted into it, the
first-minted asset is transferred from Wallet_1 to Wallet_2, the second-minted
asset is burned, the submitted transactions are exactly [allocTree+createTree],
[mintV1], [mintV1], [transfer], [burn] in that order, and the indexing-API
lookups target the first-minted then the second-minted asset. -/
theorem main_success_phase_order (w : World) (h : (mainRun w).1 = Except.ok ()) :
    ∃ a1 a2,
      (createTreeP w 1 (w.keypair "Wallet_1") ⟨3, 8⟩ 0).1 =
        Except.ok w.generatedTreeKeypair.publicKey ∧
      (mintP w 3 (w.keypair "Wallet_1") w.generatedTreeKeypair.publicKey).1 =
        Except.ok a1 ∧
      (mintP w 5 (w.keypair "Wallet_1") w.generatedTreeKeypair.publicKey).1 =
        Except.ok a2 ∧
      (transferP w 7 a1 (w.keypair "Wallet_1") (w.keypair "Wallet_2")).1 =
        Except.ok () ∧
      (burnP w 11 a2 (w.keypair "Wallet_1")).1 = Except.ok () ∧
      (mainRun w).2 = Event.issue (NetCall.airdrop (w.keypair "Wallet_1").publicKey) ::
        ((createTreeP w 1 (w.keypair "Wallet_1") ⟨3, 8⟩ 0).2.1 ++
          (mintP w 3 (w.keypair "Wallet_1") w.generatedTreeKeypair.publicKey).2.1 ++
          (mintP w 5 (w.keypair "Wallet_1") w.generatedTreeKeypair.publicKey).2.1 ++
          (transferP w 7 a1 (w.keypair "Wallet_1") (w.keypair "Wallet_2")).2.1 ++
          (burnP w 11 a2 (w.keypair "Wallet_1")).2.1) ∧
      submittedKinds (mainRun w).2 =
        [[IxKind.allocTree, IxKind.createTree], [IxKind.mintV1], [IxKind.mintV1],
          [IxKind.transfer], [IxKind.burn]] ∧
      getAssetIdsOf (mainRun w).2 = [a1.toBase58, a2.toBase58] := by
  unfold mainRun at h ⊢
  dsimp only at h ⊢
  rcases h1 : createTreeP w 1 (w.keypair "Wallet_1") ⟨3, 8⟩ 0 with ⟨r1, t1, n1⟩
  rw [h1] at h
  cases r1 with
  | error e1 => exact absurd h (by simp)
  | ok treeAddress =>
    have haddr := createTreeP_ok_addr w 1 (w.keypair "Wallet_1") ⟨3, 8⟩ 0 treeAddress
      (by rw [h1])
    subst haddr
    have hcnt := createTreeP_ok_counter w 1 (w.keypair "Wallet_1") ⟨3, 8⟩ 0 _ (by rw [h1])
    rw [h1] at hcnt
    dsimp only at hcnt
    subst hcnt
    have k1 := createTreeP_kinds_ok w 1 (w.keypair "Wallet_1") ⟨3, 8⟩ 0 _ (by rw [h1])
    have i1 := createTreeP_assetIds w 1 (w.keypair "Wallet_1") ⟨3, 8⟩ 0
    rw [h1] at k1 i1
    dsimp only at h ⊢
    rcases h2 : mintP w 3 (w.keypair "Wallet_1") w.generatedTreeKeypair.publicKey
      with ⟨r2, t2, n2⟩
    rw [h2] at h
    cases r2 with
    | error e2 => exact absurd h (by simp)
    | ok assetId1 =>
      have hcnt2 := mintP_ok_counter w 3 (w.keypair "Wallet_1")
        w.generatedTreeKeypair.publicKey _ (by rw [h2])
      rw [h2] at hcnt2
      dsimp only at hcnt2
      subst hcnt2
      have k2 := mintP_kinds_ok w 3 (w.keypair "Wallet_1")
        w.generatedTreeKeypair.publicKey _ (by rw [h2])
      have i2 := mintP_assetIds w 3 (w.keypair "Wallet_1") w.generatedTreeKeypair.publicKey
      rw [h2] at k2 i2
      dsimp only at h ⊢
      rcases h3 : mintP w 5 (w.keypair "Wallet_1") w.generatedTreeKeypair.publicKey
        with ⟨r3, t3, n3⟩
      rw [h3] at h
      cases r3 with
      | error e3 => exact absurd h (by simp)
      | ok assetId2 =>
        have hcnt3 := mintP_ok_counter w 5 (w.keypair "Wallet_1")
          w.generatedTreeKeypair.publicKey _ (by rw [h3])
        rw [h3] at hcnt3
        dsimp only at hcnt3
        subst hcnt3
        have k3 := mintP_kinds_ok w 5 (w.keypair "Wallet_1")
          w.generatedTreeKeypair.publicKey _ (by rw [h3])
        have i3 := mintP_assetIds w 5 (w.keypair "Wallet_1")
          w.generatedTreeKeypair.publicKey
        rw [h3] at k3 i3
        dsimp only at h ⊢
        rcases h4 : transferP w 7 assetId1 (w.keypair "Wallet_1") (w.keypair "Wallet_2")
          with ⟨r4, t4, n4⟩
        rw [h4] at h
        cases r4 with
        | error e4 => exact absurd h (by simp)
        | ok u =>
          have hcnt4 := transferP_ok_counter w 7 assetId1 (w.keypair "Wallet_1")
            (w.keypair "Wallet_2") (by rw [h4])
          rw [h4] at hcnt4
          dsimp only at hcnt4
          subst hcnt4
          have k4 := transferP_kinds_ok w 7 assetId1 (w.keypair "Wallet_1")
            (w.keypair "Wallet_2") (by rw [h4])
          have i4 := transferP_assetIds w 7 assetId1 (w.keypair "Wallet_1")
            (w.keypair "Wallet_2")
          rw [h4] at k4 i4
          dsimp only at h ⊢
          rcases h5 : burnP w 11 assetId2 (w.keypair "Wallet_1") with ⟨r5, t5, n5⟩
          rw [h5] at h
          cases r5 with
          | error e5 => exact absurd h (by simp)
          | ok u2 =>
            have k5 := burnP_kinds_ok w 11 assetId2 (w.keypair "Wallet_1") (by rw [h5])
            have i5 := burnP_assetIds w 11 assetId2 (w.keypair "Wallet_1")
            rw [h5] at k5 i5
            refine ⟨assetId1, assetId2, rfl, rfl, rfl, by rw [h4], by rw [h5], ?_, ?_, ?_⟩
            · rw [h4, h5]
              rfl
            · dsimp only
              simp [submittedKinds_append, submittedKinds, k1, k2, k3, k4, k5]
            · dsimp only
              simp [getAssetIdsOf_append, getAssetIdsOf, i1, i2, i3, i4, i5]

/-- Witness for C1 at the all-success world. -/
theorem main_success_phase_order_witness :
    (mainRun cw).1 = Except.ok () ∧
    (∃ a1 a2,
      (createTreeP cw 1 (cw.keypair "Wallet_1") ⟨3, 8⟩ 0).1 =
        Except.ok cw.generatedTreeKeypair.publicKey ∧
      (mintP cw 3 (cw.keypair "Wallet_1") cw.generatedTreeKeypair.publicKey).1 =
        Except.ok a1 ∧
      (mintP cw 5 (cw.keypair "Wallet_1") cw.generatedTreeKeypair.publicKey).1 =
        Except.ok a2 ∧
      (transferP cw 7 a1 (cw.keypair "Wallet_1") (cw.keypair "Wallet_2")).1 =
        Except.ok () ∧
      (burnP cw 11 a2 (cw.keypair "Wallet_1")).1 = Except.ok () ∧
      (mainRun cw).2 = Event.issue (NetCall.airdrop (cw.keypair "Wallet_1").publicKey) ::
        ((createTreeP cw 1 (cw.keypair "Wallet_1") ⟨3, 8⟩ 0).2.1 ++
          (mintP cw 3 (cw.keypair "Wallet_1") cw.generatedTreeKeypair.publicKey).2.1 ++
          (mintP cw 5 (cw.keypair "Wallet_1") cw.generatedTreeKeypair.publicKey).2.1 ++
          (transferP cw 7 a1 (cw.keypair "Wallet_1") (cw.keypair "Wallet_2")).2.1 ++
          (burnP cw 11 a2 (cw.keypair "Wallet_1")).2.1) ∧
      submittedKinds (mainRun cw).2 =
        [[IxKind.allocTree, IxKind.createTree], [IxKind.mintV1], [IxKind.mintV1],
          [IxKind.transfer], [IxKind.burn]] ∧
      getAssetIdsOf (mainRun cw).2 = [a1.toBase58, a2.toBase58]) :=
  ⟨by rfl, main_success_phase_order cw (by rfl)⟩
